import Mathlib

/-!
# screengen: the screenlist tool (`cmd/screengen/main.go`)

A shallow embedding of the command-line tool that samples a video at evenly
spaced timestamps, writes each frame to a temporary PNG file and hands an
argument list to ImageMagick's `convert`.

Conventions of the embedding.

* Go's `int` and `int64` are embedded as `Int`, for a platform with 64-bit
  `int`.  Go's `/` and `%` truncate toward zero, so they are `Int.tdiv` and
  `Int.tmod`; Lean's `/` and `%` on `Int` (floor for a positive divisor)
  appear only in the statements.
* Wrap-around at `2^63` is `wrapInt`.  It is applied on line 119, where the
  flag `-thumbnails-per-row` alone decides the size of the result.  Elsewhere
  the results are exact: the accumulator of the sampling loop never exceeds
  the duration (`accumulator_le_duration`), the loop variables `x` and `y`
  never exceed the number of images, which line 95 bounds
  (`cellFrom_bounds`, `maxImages`), and the products with the thumbnail
  height (lines 120 and 158-163) are taken exactly, the height being small
  for the frames of a video.
* Line 95 allocates the slice for `n` images.  The run ends there when `n`
  is negative or above `maxImages` (a panic), and when the runtime has no
  memory for the slice (`Extern.allocImages`).
* `fmt.Sprintf` with `%d` is `toString` on `Int`, `%02d` is `fmt02`.
* Everything outside the program (the frame generator, the temp directory,
  `os.Stat`, the `convert` process) is a field of `Extern`; the effects the
  program has on the outside are recorded in `Sys`.
* The one `float64` expression of the program (the thumbnail height, line 94)
  is the field `Extern.floatHeight`.
-/

namespace Screengen

/-! ## Constants and flags (lines 31-41) -/

/-- Thumbnail width in pixels (`thWidth`, line 32). -/
def thWidth : Int := 256

/-- Gap between thumbnails and around the grid (`thSpacing`, line 33). -/
def thSpacing : Int := 16

/-- Go's `int` arithmetic on a 64-bit platform: the exact result reduced to
the range from `-2^63` to `2^63 - 1`. -/
def wrapInt (x : Int) : Int :=
  (x + 9223372036854775808) % 18446744073709551616 - 9223372036854775808

/-- The largest capacity `make([]Image, 0, n)` accepts on a 64-bit platform:
an `Image` takes 24 bytes (an `int64` and a string header) and the runtime
panics when the size of the slice exceeds `2^48` bytes. -/
def maxImages : Int := 11728124029610

/-- The four command-line flags (lines 36-41), after `flag.Parse`. -/
structure Flags where
  n : Int
  thumbnailsPerRow : Int
  output : String
  quality : Int
  deriving DecidableEq, Repr

/-- The flag defaults of lines 37-40. -/
def defaultFlags : Flags :=
  { n := 27, thumbnailsPerRow := 3, output := "output.jpg", quality := 85 }

/-! ## Formatting helpers -/

/-- The verb `%02d` of `fmt.Sprintf`: decimal, padded with zeros to width two.
A negative number already has two characters, sign included. -/
def fmt02 (x : Int) : String :=
  if 0 ≤ x ∧ x < 10 then "0" ++ toString x else toString x

/-- Source `ms2String` (lines 43-50). -/
def ms2String (ms : Int) : String :=
  let s := ms.tdiv 1000
  let h := (s.tdiv 60).tdiv 60
  let s := s - h * 60 * 60
  let m := s.tdiv 60
  let s := s - m * 60
  fmt02 h ++ ":" ++ fmt02 m ++ ":" ++ fmt02 s

/-- Source `divRoundUp` (lines 77-83); `none` is the run-time panic of an
integer division by zero. -/
def divRoundUp (a b : Int) : Option Int :=
  if b = 0 then none
  else
    let c := a.tdiv b
    if a.tmod b > 0 then some (c + 1) else some c

/-- The format `"text %d,%d '%s'"` used for every `-draw` argument. -/
def drawText (x y : Int) (s : String) : String :=
  "text " ++ toString x ++ "," ++ toString y ++ " '" ++ s ++ "'"

/-- The format `"%dx%d"` used for `-size` and for the resolution. -/
def fmtSize (w h : Int) : String :=
  toString w ++ "x" ++ toString h

/-- The format `"+%d+%d"` used for `-geometry`. -/
def fmtGeometry (x y : Int) : String :=
  "+" ++ toString x ++ "+" ++ toString y

/-! ## Data model -/

/-- A decoded frame (`image.Image`); only its identity matters here. -/
structure Frame where
  id : Nat
  deriving DecidableEq, Repr

/-- Source `Image` (lines 52-55): a timestamp and the temp file of its frame. -/
structure Image where
  time : Int
  filename : String
  deriving DecidableEq, Repr

/-- The fields of `screengen.Generator` that the program reads. -/
structure Generator where
  Duration : Int
  Width : Int
  Height : Int
  Filename : String
  VideoCodecLongName : String
  AudioCodecLongName : String
  deriving DecidableEq, Repr

/-- The outside world.  A call is identified by its index `k` (the number of
earlier calls of the same kind in this run), so a collaborator may answer the
same request differently at different times. -/
structure Extern where
  /-- The value of `int(float64(height) * thWidth / float64(width))`. -/
  floatHeight : Int → Int → Int
  /-- Whether the runtime has the memory for `make([]Image, 0, n)` on line
  95, for a capacity `n` it accepts. -/
  allocImages : Int → Bool
  /-- `g.ImageWxH(ts, w, h)` at the `k`-th request. -/
  imageWxH : Nat → Int → Int → Int → Except String Frame
  /-- `ioutil.TempFile("", "screengen")` in the `k`-th `writePng`: the name of
  the file it created. -/
  tempFile : Nat → Except String String
  /-- `png.Encode(f, img)` in the `k`-th `writePng`. -/
  pngEncode : Nat → Frame → Except String Unit
  /-- `f.Close()` at the end of the `k`-th `writePng`. -/
  closeFile : Nat → Except String Unit
  /-- `os.Stat(name)`, reduced to the size in bytes. -/
  stat : String → Except String Int
  /-- `exec.Command("convert", args...).Run()`. -/
  convert : List String → Except String Unit

/-- What the run has done to the outside so far. -/
structure Sys where
  /-- Timestamps of the frame requests, oldest first. -/
  requests : List Int
  /-- Temp files of this run that are on disk. -/
  disk : List String
  /-- Argument lists with which `convert` was run, oldest first. -/
  converts : List (List String)
  deriving DecidableEq, Repr

/-- The state before the run. -/
def Sys.init : Sys := { requests := [], disk := [], converts := [] }

/-- How `makeScreenList` ends. -/
inductive Exit where
  /-- It returned `nil`. -/
  | ok
  /-- It returned an error (deferred calls have run). -/
  | error (msg : String)
  /-- A run-time panic unwound it (deferred calls have run). -/
  | panic (msg : String)
  /-- `log.Fatal` ended the process inside it: `os.Exit(1)`, deferred calls
  are not run. -/
  | fatal (msg : String)
  deriving DecidableEq, Repr

/-! ## The program -/

/-- Source `writePng` (lines 57-75), as the `k`-th call: the result, and the
temp files on disk afterwards.  The file made by `TempFile` stays on disk on
every path. -/
def writePng (e : Extern) (k : Nat) (img : Frame) (disk : List String) :
    Except String String × List String :=
  match e.tempFile k with
  | .error err => (.error err, disk)
  | .ok name =>
    let disk := disk ++ [name]
    match e.pngEncode k img with
    | .error err => (.error err, disk)
    | .ok _ =>
      match e.closeFile k with
      | .error err => (.error err, disk)
      | .ok _ => (.ok name, disk)

/-- Source `fileSize` (lines 85-91); `none` is the `log.Fatal` of line 88. -/
def fileSize (e : Extern) (name : String) : Option String :=
  match e.stat name with
  | .error _ => none
  | .ok size => some (toString ((size.tdiv 1024).tdiv 1024) ++ " Mb")

/-- State of the sampling loop when it stops. -/
structure LoopResult where
  /-- The error with which the loop returned from the function, if any. -/
  err : Option String
  /-- The slice `images`; its files are those with a deferred `os.Remove`. -/
  images : List Image
  sys : Sys
  deriving DecidableEq, Repr

/-- The loop of lines 98-116 with `rem` iterations to go, `d` the current
timestamp and `images` the slice built so far (its length is the loop
counter `i`). -/
def fetchLoop (e : Extern) (thHeight inc : Int) :
    Nat → Int → List Image → Sys → LoopResult
  | 0, _, images, s => { err := none, images := images, sys := s }
  | rem + 1, d, images, s =>
    let s1 : Sys := { s with requests := s.requests ++ [d] }
    match e.imageWxH images.length d thWidth thHeight with
    | .error err =>
      { err := some ("can't extract image: " ++ err), images := images, sys := s1 }
    | .ok img =>
      match writePng e images.length img s1.disk with
      | (.error err, disk) =>
        { err := some ("can't write thumbnail: " ++ err), images := images,
          sys := { s1 with disk := disk } }
      | (.ok fn, disk) =>
        fetchLoop e thHeight inc rem (d + inc)
          (images ++ [{ time := d, filename := fn }]) { s1 with disk := disk }

/-- The deferred `os.Remove(fn)` calls of line 108, run last-registered first
when the function returns or panics. -/
def runDeferred (images : List Image) (s : Sys) : Sys :=
  images.reverse.foldl
    (fun s img => { s with disk := s.disk.filter (fun f => f ≠ img.filename) }) s

/-- The twelve arguments appended for one thumbnail (lines 156-164), with the
loop variables `x` and `y`. -/
def thumbArgs (thHeight x y : Int) (img : Image) : List String :=
  [ img.filename,
    "-geometry",
    fmtGeometry (x * (thWidth + thSpacing) + thSpacing) (y * (thHeight + thSpacing) + thSpacing),
    "-composite",
    "-fill", "black",
    "-draw",
    drawText (x * (thWidth + thSpacing) + thSpacing + 5)
      (y * (thHeight + thSpacing) + thSpacing + 5) (ms2String img.time),
    "-fill", "white",
    "-draw",
    drawText (x * (thWidth + thSpacing) + thSpacing + 6)
      (y * (thHeight + thSpacing) + thSpacing + 6) (ms2String img.time) ]

/-- The loop of lines 153-171: the arguments of the remaining images, from the
loop variables `x` and `y`. -/
def gridArgs (thumbnailsPerRow thHeight : Int) : Int → Int → List Image → List String
  | _, _, [] => []
  | x, y, img :: rest =>
    thumbArgs thHeight x y img ++
      (if x + 1 = thumbnailsPerRow then gridArgs thumbnailsPerRow thHeight 0 (y + 1) rest
       else gridArgs thumbnailsPerRow thHeight (x + 1) y rest)

/-- Offset of the value column from the label column (`xoffset`, line 121). -/
def xoffset : Int := 80

/-- Distance between header lines (`lineHeight`, line 122). -/
def lineHeight : Int := 16

/-- The literal of lines 123-151: header panel and the opening of the grid
panel, for canvas width `w`, canvas height `h` and the size text `size`. -/
def headArgs (g : Generator) (w h : Int) (size : String) : List String :=
  [ "(",
    "-size", fmtSize w 128,
    "xc:white",
    "-fill", "black",
    "-font", "LiberationSansB",
    "-draw", drawText thSpacing (thSpacing * 2) "Filename:",
    "-draw", drawText thSpacing (thSpacing * 2 + lineHeight) "Size:",
    "-draw", drawText thSpacing (thSpacing * 2 + lineHeight * 2) "Duration:",
    "-draw", drawText thSpacing (thSpacing * 2 + lineHeight * 3) "Resolution:",
    "-draw", drawText thSpacing (thSpacing * 2 + lineHeight * 4) "Video:",
    "-draw", drawText thSpacing (thSpacing * 2 + lineHeight * 5) "Audio:",
    "-font", "LiberationSans",
    "-draw", drawText (thSpacing + xoffset) (thSpacing * 2) g.Filename,
    "-draw", drawText (thSpacing + xoffset) (thSpacing * 2 + lineHeight) size,
    "-draw", drawText (thSpacing + xoffset) (thSpacing * 2 + lineHeight * 2) (ms2String g.Duration),
    "-draw", "text " ++ toString (thSpacing + xoffset) ++ "," ++ toString (thSpacing * 2 + lineHeight * 3)
      ++ " '" ++ fmtSize g.Width g.Height ++ "'",
    "-draw", drawText (thSpacing + xoffset) (thSpacing * 2 + lineHeight * 4) g.VideoCodecLongName,
    "-draw", drawText (thSpacing + xoffset) (thSpacing * 2 + lineHeight * 5) g.AudioCodecLongName,
    ")",
    "(",
    "-size", fmtSize w h,
    "xc:white",
    "-gravity", "northwest",
    "-font", "LiberationSans" ]

/-- Canvas width `w` of line 119, in Go's `int` arithmetic. -/
def canvasWidth (thumbnailsPerRow : Int) : Int :=
  wrapInt (wrapInt (thumbnailsPerRow * thWidth)
    + wrapInt (wrapInt (thumbnailsPerRow + 1) * thSpacing))

/-- Canvas height `h` of line 120. -/
def canvasHeight (numRows thHeight : Int) : Int :=
  numRows * thHeight + (numRows + 1) * thSpacing

/-- The argument list of lines 123-173 from its ingredients. -/
def buildArgs (f : Flags) (g : Generator) (thHeight numRows : Int) (size : String)
    (images : List Image) : List String :=
  headArgs g (canvasWidth f.thumbnailsPerRow) (canvasHeight numRows thHeight) size
    ++ gridArgs f.thumbnailsPerRow thHeight 0 0 images
    ++ [")", "-append", "-quality", toString f.quality, f.output]

/-- The sampling loop as `makeScreenList` starts it (lines 94-98), once the
slice of line 95 is made and `n > 0`. -/
def sample (e : Extern) (f : Flags) (g : Generator) (s : Sys) : LoopResult :=
  fetchLoop e (e.floatHeight g.Height g.Width) (g.Duration.tdiv f.n) f.n.toNat 0 [] s

/-- Source `makeScreenList` (lines 93-176): how it ends and what it has done
to the outside.  The fatal error of the runtime for lack of memory on line
95 is recorded as a panic: no deferred call is pending there, and the
process ends with the same status. -/
def makeScreenList (e : Extern) (f : Flags) (g : Generator) (s : Sys) : Exit × Sys :=
  if f.n < 0 ∨ maxImages < f.n then (.panic "makeslice: cap out of range", s)
  else if e.allocImages f.n = false then (.panic "runtime: out of memory", s)
  else if f.n = 0 then (.panic "integer divide by zero", s)
  else
    let thHeight := e.floatHeight g.Height g.Width
    let r := sample e f g s
    match r.err with
    | some err => (.error err, runDeferred r.images r.sys)
    | none =>
      match divRoundUp r.images.length f.thumbnailsPerRow with
      | none => (.panic "integer divide by zero", runDeferred r.images r.sys)
      | some numRows =>
        match fileSize e g.Filename with
        | none => (.fatal "can't get file size", r.sys)
        | some size =>
          let args := buildArgs f g thHeight numRows size r.images
          let s2 : Sys := { r.sys with converts := r.sys.converts ++ [args] }
          match e.convert args with
          | .error err => (.error err, runDeferred r.images s2)
          | .ok _ => (.ok, runDeferred r.images s2)

/-- Line 95 returns: the capacity `n` is one the runtime accepts and it has
the memory for the slice. -/
def SliceMade (e : Extern) (f : Flags) : Prop :=
  0 ≤ f.n ∧ f.n ≤ maxImages ∧ e.allocImages f.n = true

/-- The first `m` iterations of the sampling loop meet no failure: for every
`k < m` the request the loop makes in iteration `k`, for the frame at
`k * inc` in size `thWidth x thHeight`, is answered with a frame, and the
temp file for that frame is created, encoded and closed. -/
def FetchOk (e : Extern) (thHeight inc : Int) (m : Nat) : Prop :=
  ∀ k, k < m →
    ∃ (img : Frame) (name : String),
      e.imageWxH k ((k : Int) * inc) thWidth thHeight = .ok img ∧
      e.tempFile k = .ok name ∧
      e.pngEncode k img = .ok () ∧
      e.closeFile k = .ok ()

/-- A world in which every collaborator succeeds, for the examples: the
`k`-th temp file is named after `k`, the source file has 300 MiB, and the
thumbnail height is the truncated quotient. -/
def demoExtern : Extern :=
  { floatHeight := fun h w => (h * thWidth).tdiv w
    allocImages := fun _ => true
    imageWxH := fun k _ _ _ => .ok { id := k }
    tempFile := fun k => .ok ("/tmp/screengen" ++ toString k)
    pngEncode := fun _ _ => .ok ()
    closeFile := fun _ => .ok ()
    stat := fun _ => .ok 314572800
    convert := fun _ => .ok () }

/-- A 1920x1080 source of 270 seconds, for the examples. -/
def demoVideo : Generator :=
  { Duration := 270000, Width := 1920, Height := 1080, Filename := "a.mkv",
    VideoCodecLongName := "H.264", AudioCodecLongName := "AAC" }

/-- Flags `-n 3`, the rest at their defaults. -/
def flags3 : Flags := { defaultFlags with n := 3 }

/-- The world of `demoExtern`, except that `os.Stat` on the source fails. -/
def statFailExtern : Extern :=
  { demoExtern with stat := fun _ => .error "no such file or directory" }

/-- The world of `demoExtern`, except that `png.Encode` fails in the second
`writePng`. -/
def encodeFailExtern : Extern :=
  { demoExtern with
    pngEncode := fun k _ => if k = 1 then .error "no space left on device" else .ok () }

/-- The world of `demoExtern`, except that the third frame request fails. -/
def frameFailExtern : Extern :=
  { demoExtern with
    imageWxH := fun k _ _ _ => if k = 2 then .error "seek failed" else .ok { id := k } }

/-- One step of the loop variables `x`, `y` (lines 166-170), as a pair. -/
def nextCell (thumbnailsPerRow : Int) (p : Int × Int) : Int × Int :=
  if p.1 + 1 = thumbnailsPerRow then (0, p.2 + 1) else (p.1 + 1, p.2)

/-- The loop variables `(x, y)` at the `i`-th thumbnail after `p`. -/
def cellFrom (thumbnailsPerRow : Int) (p : Int × Int) (i : Nat) : Int × Int :=
  (nextCell thumbnailsPerRow)^[i] p

/-- The spec's wording of a clock field: the decimal rendering, left-padded
with zeros to two characters. -/
def zeroPadded2 (x : Int) : String :=
  String.mk (List.replicate (2 - (toString x).length) '0') ++ toString x

/-- The timestamps `d, d + inc, ..., d + (m-1) * inc`. -/
def ticks (d inc : Int) (m : Nat) : List Int :=
  (List.range m).map (fun (j : Nat) => d + (j : Int) * inc)

/-- The call `divRoundUp(len(images), *thumbnailsPerRow)` of line 118: its
two arguments when the run reaches it, `none` when the run has ended before
(a panic on lines 95-96 or an error return from the loop). -/
def layoutCall (e : Extern) (f : Flags) (g : Generator) (s : Sys) : Option (Int × Int) :=
  if f.n < 0 ∨ maxImages < f.n then none
  else if e.allocImages f.n = false then none
  else if f.n = 0 then none
  else
    match (sample e f g s).err with
    | some _ => none
    | none => some (((sample e f g s).images.length : Int), f.thumbnailsPerRow)

/-- The three numbers `h`, `m`, `s` that `ms2String` hands to `Sprintf`
(lines 44-48). -/
def clockFields (ms : Int) : Int × Int × Int :=
  let s := ms.tdiv 1000
  let h := (s.tdiv 60).tdiv 60
  let s := s - h * 60 * 60
  let m := s.tdiv 60
  let s := s - m * 60
  (h, m, s)

/-- Reading a decimal numeral back: the number a list of digit characters
stands for. -/
def decodeDec (l : List Char) : Nat :=
  l.foldl (fun acc c => acc * 10 + (c.toNat - 48)) 0

/-- What a run of the process leaves behind. -/
structure MainResult where
  /-- Exit status of the process. -/
  exitCode : Nat
  /-- Lines written to standard output. -/
  stdout : List String
  /-- Messages written to standard error. -/
  stderr : List String
  /-- Paths handed to `screengen.NewGenerator`, oldest first. -/
  opened : List String
  sys : Sys
  deriving DecidableEq, Repr

/-- Source `main` (lines 178-196) after `flag.Parse` has succeeded with flag
values `f` and positional arguments `args`.  `newGenerator` is
`screengen.NewGenerator`, `defaults` the text that `flag.PrintDefaults`
writes (to standard error, the output of the flag set).  `log.Fatal` exits
with status 1, a panic with status 2. -/
def main (newGenerator : String → Except String Generator) (defaults : String)
    (e : Extern) (f : Flags) (args : List String) : MainResult :=
  if args.length ≠ 1 then
    { exitCode := 0
      stdout := ["Usage: screengen [options] videofile", "Options:"]
      stderr := [defaults]
      opened := []
      sys := Sys.init }
  else
    let path := args.headD ""
    match newGenerator path with
    | .error err =>
      { exitCode := 1, stdout := [], stderr := [err], opened := [path], sys := Sys.init }
    | .ok g =>
      match makeScreenList e f g Sys.init with
      | (.ok, s) =>
        { exitCode := 0, stdout := [], stderr := [], opened := [path], sys := s }
      | (.error err, s) =>
        { exitCode := 1, stdout := [], stderr := [err], opened := [path], sys := s }
      | (.fatal msg, s) =>
        { exitCode := 1, stdout := [], stderr := [msg], opened := [path], sys := s }
      | (.panic msg, s) =>
        { exitCode := 2, stdout := [], stderr := ["panic: " ++ msg], opened := [path],
          sys := s }

/-- The world of `demoExtern` in a second run: everything answers the same,
but the temp directory hands out other names. -/
def secondRunExtern : Extern :=
  { demoExtern with tempFile := fun k => .ok ("/tmp/screengen9" ++ toString k) }

/-! ## The sampling loop -/

theorem ticks_zero (d inc : Int) : ticks d inc 0 = [] := rfl

theorem ticks_succ (d inc : Int) (m : Nat) :
    ticks d inc (m + 1) = d :: ticks (d + inc) inc m := by
  unfold ticks
  rw [List.range_succ_eq_map, List.map_cons, List.map_map]
  simp only [Nat.cast_zero, zero_mul, add_zero, List.cons.injEq, true_and]
  apply List.map_congr_left
  intro j _
  simp only [Function.comp_apply, Nat.succ_eq_add_one, Nat.cast_add, Nat.cast_one]
  ring

theorem ticks_length (d inc : Int) (m : Nat) : (ticks d inc m).length = m := by
  simp [ticks]

theorem writePng_ok_of (e : Extern) (k : Nat) (img : Frame) (disk : List String)
    (name : String) (h1 : e.tempFile k = .ok name) (h2 : e.pngEncode k img = .ok ())
    (h3 : e.closeFile k = .ok ()) :
    writePng e k img disk = (.ok name, disk ++ [name]) := by
  simp [writePng, h1, h2, h3]

/-- What the sampling loop does, whatever the collaborators answer: it appends
`new` images whose times are the first ticks from `d`, never runs `convert`,
and either finishes all `rem` iterations or stops with an error right after
one more frame request. -/
theorem fetchLoop_spec (e : Extern) (thHeight inc : Int) :
    ∀ (rem : Nat) (d : Int) (images : List Image) (s : Sys),
      ∃ new : List Image,
        (fetchLoop e thHeight inc rem d images s).images = images ++ new ∧
        new.map Image.time = ticks d inc new.length ∧
        (fetchLoop e thHeight inc rem d images s).sys.converts = s.converts ∧
        (((fetchLoop e thHeight inc rem d images s).err = none ∧ new.length = rem ∧
            (fetchLoop e thHeight inc rem d images s).sys.requests
              = s.requests ++ ticks d inc new.length) ∨
         ((fetchLoop e thHeight inc rem d images s).err ≠ none ∧ new.length < rem ∧
            (fetchLoop e thHeight inc rem d images s).sys.requests
              = s.requests ++ ticks d inc (new.length + 1))) := by
  intro rem
  induction rem with
  | zero =>
    intro d images s
    exact ⟨[], by simp [fetchLoop, ticks_zero]⟩
  | succ rem ih =>
    intro d images s
    rcases hf : e.imageWxH images.length d thWidth thHeight with err | img
    · exact ⟨[], by simp [fetchLoop, hf, ticks_succ, ticks_zero]⟩
    · rcases hw : writePng e images.length img s.disk with ⟨res, disk⟩
      cases res with
      | error err =>
        refine ⟨[], ?_⟩
        simp only [fetchLoop, hf]
        simp [hw, ticks_succ, ticks_zero]
      | ok fn =>
        obtain ⟨new, h1, h2, h3, h4⟩ := ih (d + inc) (images ++ [{ time := d, filename := fn }])
          { requests := s.requests ++ [d], disk := disk, converts := s.converts }
        refine ⟨{ time := d, filename := fn } :: new, ?_⟩
        simp only [fetchLoop, hf]
        simp only [hw]
        refine ⟨by simpa using h1, by simp [ticks_succ, h2], h3, ?_⟩
        rcases h4 with ⟨a, b, c⟩ | ⟨a, b, c⟩
        · left
          exact ⟨a, by simp [b], by rw [c]; simp [ticks_succ]⟩
        · right
          exact ⟨a, by simpa using b, by rw [c]; simp [ticks_succ]⟩

/-- With the first `images.length + rem` iterations meeting no failure, the
loop finishes without an error. -/
theorem fetchLoop_ok (e : Extern) (thHeight inc : Int) :
    ∀ (rem : Nat) (d : Int) (images : List Image) (s : Sys),
      d = (images.length : Int) * inc →
      FetchOk e thHeight inc (images.length + rem) →
      (fetchLoop e thHeight inc rem d images s).err = none := by
  intro rem
  induction rem with
  | zero => intro d images s _ _; simp [fetchLoop]
  | succ rem ih =>
    intro d images s hd hok
    obtain ⟨img, name, himg, hname, henc, hclose⟩ := hok images.length (by omega)
    rw [← hd] at himg
    have hw := writePng_ok_of e images.length img s.disk name hname henc hclose
    simp only [fetchLoop, himg, hw]
    apply ih
    · rw [hd]
      simp only [List.length_append, List.length_singleton]
      push_cast
      ring
    · intro k hk
      exact hok k (by simp at hk; omega)

/-- When the iterations before index `k` meet no failure and the `k`-th frame
request fails, the loop stops there with the extraction error, having built
`k` images. -/
theorem fetchLoop_fail (e : Extern) (thHeight inc : Int) (k : Nat) (msg : String) :
    ∀ (rem : Nat) (d : Int) (images : List Image) (s : Sys),
      d = (images.length : Int) * inc →
      images.length ≤ k → k < images.length + rem → FetchOk e thHeight inc k →
      e.imageWxH k ((k : Int) * inc) thWidth thHeight = .error msg →
      (fetchLoop e thHeight inc rem d images s).err = some ("can't extract image: " ++ msg) ∧
      (fetchLoop e thHeight inc rem d images s).images.length = k := by
  intro rem
  induction rem with
  | zero => intro d images s _ h1 h2; omega
  | succ rem ih =>
    intro d images s hd h1 h2 hok hfail
    rcases Nat.eq_or_lt_of_le h1 with heq | hlt
    · subst heq
      rw [← hd] at hfail
      simp [fetchLoop, hfail]
    · obtain ⟨img, name, himg, hname, henc, hclose⟩ := hok images.length hlt
      rw [← hd] at himg
      have hw := writePng_ok_of e images.length img s.disk name hname henc hclose
      simp only [fetchLoop, himg, hw]
      apply ih
      · rw [hd]
        simp only [List.length_append, List.length_singleton]
        push_cast
        ring
      · simp; omega
      · simp; omega
      · exact hok
      · exact hfail

theorem runDeferred_requests (images : List Image) (s : Sys) :
    (runDeferred images s).requests = s.requests := by
  unfold runDeferred
  generalize images.reverse = l
  induction l generalizing s with
  | nil => rfl
  | cons a l ih => simp only [List.foldl_cons]; rw [ih]

theorem runDeferred_converts (images : List Image) (s : Sys) :
    (runDeferred images s).converts = s.converts := by
  unfold runDeferred
  generalize images.reverse = l
  induction l generalizing s with
  | nil => rfl
  | cons a l ih => simp only [List.foldl_cons]; rw [ih]

/-- Past line 95 the branches of `makeScreenList` before the loop are not
taken. -/
theorem makeScreenList_of_made (e : Extern) (f : Flags) (g : Generator) (s : Sys)
    (hn : 0 < f.n) (hmake : SliceMade e f) :
    makeScreenList e f g s
      = match (sample e f g s).err with
        | some err => (.error err, runDeferred (sample e f g s).images (sample e f g s).sys)
        | none =>
          match divRoundUp (sample e f g s).images.length f.thumbnailsPerRow with
          | none =>
            (.panic "integer divide by zero",
              runDeferred (sample e f g s).images (sample e f g s).sys)
          | some numRows =>
            match fileSize e g.Filename with
            | none => (.fatal "can't get file size", (sample e f g s).sys)
            | some size =>
              match e.convert (buildArgs f g (e.floatHeight g.Height g.Width) numRows size
                  (sample e f g s).images) with
              | .error err =>
                (.error err, runDeferred (sample e f g s).images
                  { (sample e f g s).sys with
                    converts := (sample e f g s).sys.converts
                      ++ [buildArgs f g (e.floatHeight g.Height g.Width) numRows size
                        (sample e f g s).images] })
              | .ok _ =>
                (.ok, runDeferred (sample e f g s).images
                  { (sample e f g s).sys with
                    converts := (sample e f g s).sys.converts
                      ++ [buildArgs f g (e.floatHeight g.Height g.Width) numRows size
                        (sample e f g s).images] }) := by
  obtain ⟨h0, hmax, halloc⟩ := hmake
  unfold makeScreenList
  rw [if_neg (by omega), if_neg (by simp [halloc]), if_neg (by omega)]

/-- When line 95 does not return, the run ends there and has done nothing to
the outside. -/
theorem makeScreenList_of_not_made (e : Extern) (f : Flags) (g : Generator) (s : Sys)
    (hmake : ¬ SliceMade e f) :
    (makeScreenList e f g s).2 = s ∧
    ((makeScreenList e f g s).1 = .panic "makeslice: cap out of range" ∨
      (makeScreenList e f g s).1 = .panic "runtime: out of memory") := by
  unfold makeScreenList
  by_cases h1 : f.n < 0 ∨ maxImages < f.n
  · rw [if_pos h1]
    exact ⟨rfl, Or.inl rfl⟩
  · rw [if_neg h1]
    by_cases h2 : e.allocImages f.n = false
    · rw [if_pos h2]
      exact ⟨rfl, Or.inr rfl⟩
    · exfalso
      apply hmake
      refine ⟨by omega, by omega, ?_⟩
      simpa using h2

/-- The frame requests of a whole run are those of its sampling loop. -/
theorem makeScreenList_requests (e : Extern) (f : Flags) (g : Generator) (s : Sys)
    (hn : 0 < f.n) (hmake : SliceMade e f) :
    (makeScreenList e f g s).2.requests = (sample e f g s).sys.requests := by
  rw [makeScreenList_of_made e f g s hn hmake]
  split
  · simp [runDeferred_requests]
  · split
    · simp [runDeferred_requests]
    · split
      · rfl
      · split <;> simp [runDeferred_requests]

theorem ticks_prefix (inc : Int) (m k : Nat) :
    ∀ d : Int, ticks d inc m <+: ticks d inc (m + k) := by
  induction m with
  | zero => intro d; simp [ticks_zero]
  | succ m ih =>
    intro d
    rw [show m + 1 + k = (m + k) + 1 by omega, ticks_succ, ticks_succ]
    exact (List.prefix_cons_inj d).mpr (ih (d + inc))

theorem mem_ticks_zero {inc t : Int} {m : Nat} (h : t ∈ ticks 0 inc m) :
    ∃ j : Nat, j < m ∧ t = (j : Int) * inc := by
  unfold ticks at h
  rcases List.mem_map.mp h with ⟨j, hj, rfl⟩
  exact ⟨j, List.mem_range.mp hj, by simp⟩

theorem ticks_zero_eq (inc : Int) (m : Nat) :
    ticks 0 inc m = (List.range m).map (fun (i : Nat) => (i : Int) * inc) := by
  unfold ticks
  apply List.map_congr_left
  intro j _
  simp

theorem ticks_sorted (inc : Int) (hinc : 0 ≤ inc) (m : Nat) :
    (ticks 0 inc m).Sorted (fun a b => a ≤ b) := by
  unfold ticks List.Sorted
  rw [List.pairwise_map]
  apply List.Pairwise.imp _ (List.pairwise_lt_range m)
  intro a b hab
  have : (a : Int) ≤ b := by exact_mod_cast hab.le
  nlinarith

/-- The accumulator `d` of the sampling loop stays within the duration: after
`j ≤ n` additions of `inc` it is `j * inc ≤ Duration`, so no `int64` overflow
occurs in the loop. -/
theorem accumulator_le_duration (duration n : Int) (hd : 0 < duration) (hn : 0 < n)
    (j : Nat) (hj : (j : Int) ≤ n) :
    0 ≤ (j : Int) * duration.tdiv n ∧ (j : Int) * duration.tdiv n ≤ duration := by
  rw [Int.tdiv_eq_ediv hd.le hn.le]
  have h0 : 0 ≤ duration / n := Int.ediv_nonneg hd.le hn.le
  have h1 : duration / n * n ≤ duration := Int.ediv_mul_le duration (by omega)
  have hj0 : (0 : Int) ≤ j := by exact_mod_cast Nat.zero_le j
  constructor
  · positivity
  · nlinarith

/-- A sampled timestamp lies in `[0, duration)`. -/
theorem tick_lt_duration (duration n : Int) (hd : 0 < duration) (hn : 0 < n)
    (j : Nat) (hj : (j : Int) < n) :
    0 ≤ (j : Int) * (duration / n) ∧ (j : Int) * (duration / n) < duration := by
  have h0 : 0 ≤ duration / n := Int.ediv_nonneg hd.le hn.le
  have h1 : duration / n * n ≤ duration := Int.ediv_mul_le duration (by omega)
  have hj0 : (0 : Int) ≤ j := by exact_mod_cast Nat.zero_le j
  constructor
  · positivity
  · rcases h0.eq_or_lt with h | h
    · rw [← h]; simpa using hd
    · nlinarith

/-- Shape of the sampling loop of a run with `n > 0`: the image times are the
first `m` ticks, the requests the first `q` ticks, with `m ≤ q`,
`1 ≤ q ≤ n`, and `m = n` when the loop ends without an error. -/
theorem sample_shape (e : Extern) (f : Flags) (g : Generator) (s : Sys) (hn : 0 < f.n) :
    ∃ m q : Nat, m ≤ q ∧ 1 ≤ q ∧ q ≤ f.n.toNat ∧
      (sample e f g s).images.length = m ∧
      (sample e f g s).images.map Image.time = ticks 0 (g.Duration.tdiv f.n) m ∧
      (sample e f g s).sys.requests = s.requests ++ ticks 0 (g.Duration.tdiv f.n) q ∧
      (sample e f g s).sys.converts = s.converts ∧
      ((sample e f g s).err = none → m = f.n.toNat) ∧
      ((sample e f g s).err ≠ none → q = m + 1) := by
  have hpos : 0 < f.n.toNat := by omega
  obtain ⟨new, h1, h2, h3, h4⟩ := fetchLoop_spec e (e.floatHeight g.Height g.Width)
    (g.Duration.tdiv f.n) f.n.toNat 0 [] s
  rw [List.nil_append] at h1
  rcases h4 with ⟨a, b, c⟩ | ⟨a, b, c⟩
  · refine ⟨new.length, new.length, le_refl _, by omega, by omega, ?_, ?_, c, h3, ?_, ?_⟩
    · unfold sample; rw [h1]
    · unfold sample; rw [h1]; exact h2
    · intro _; exact b
    · intro hne; exact absurd a hne
  · refine ⟨new.length, new.length + 1, by omega, by omega, by omega, ?_, ?_, c, h3, ?_, ?_⟩
    · unfold sample; rw [h1]
    · unfold sample; rw [h1]; exact h2
    · intro hnone; exact absurd hnone a
    · intro _; rfl

/-- With the `n` iterations of the sampling loop meeting no failure, the loop
ends without an error and with `n` images. -/
theorem sample_ok (e : Extern) (f : Flags) (g : Generator) (s : Sys)
    (hn : 0 < f.n)
    (hok : FetchOk e (e.floatHeight g.Height g.Width) (g.Duration.tdiv f.n) f.n.toNat) :
    (sample e f g s).err = none ∧ ((sample e f g s).images.length : Int) = f.n := by
  have herr : (sample e f g s).err = none :=
    fetchLoop_ok e _ _ f.n.toNat 0 [] s (by simp) (by simpa using hok)
  obtain ⟨m, q, _, _, _, hlen, _, _, _, hm, _⟩ := sample_shape e f g s hn
  refine ⟨herr, ?_⟩
  rw [hlen, hm herr]
  omega

/-- Every collaborator call of `demoExtern` succeeds. -/
theorem demoExtern_fetchOk (thHeight inc : Int) (m : Nat) :
    FetchOk demoExtern thHeight inc m :=
  fun k _ => ⟨{ id := k }, "/tmp/screengen" ++ toString k, rfl, rfl, rfl, rfl⟩

theorem demoExtern_sliceMade (f : Flags) (h0 : 0 ≤ f.n) (hmax : f.n ≤ maxImages) :
    SliceMade demoExtern f :=
  ⟨h0, hmax, rfl⟩

/-! ## Claims on the time sampler -/

/-- C1, as the code has it: for a positive duration and a positive count
for which line 95 returns (the count is at most `maxImages` and the runtime
has the memory for the slice), the `i`-th timestamp the sampling loop of
`makeScreenList` produces is `i * floor(duration / n)`: whatever the
collaborators answer, the image times and the frame requests are initial
segments of that list of `n` timestamps; and when no iteration of the loop
meets a failure, the loop ends without an error with exactly `n` images
carrying exactly these timestamps, which are also the timestamps of the
frame requests. -/
theorem sample_timestamps (e : Extern) (f : Flags) (g : Generator) (s : Sys)
    (hd : 0 < g.Duration) (hn : 0 < f.n) (hmake : SliceMade e f) :
    (sample e f g s).images.map Image.time
      <+: (List.range f.n.toNat).map (fun (i : Nat) => (i : Int) * (g.Duration / f.n)) ∧
    (∃ req, (makeScreenList e f g s).2.requests = s.requests ++ req ∧
      req <+: (List.range f.n.toNat).map (fun (i : Nat) => (i : Int) * (g.Duration / f.n))) ∧
    (FetchOk e (e.floatHeight g.Height g.Width) (g.Duration / f.n) f.n.toNat →
      (sample e f g s).err = none ∧
      ((sample e f g s).images.length : Int) = f.n ∧
      (sample e f g s).images.map Image.time
        = (List.range f.n.toNat).map (fun (i : Nat) => (i : Int) * (g.Duration / f.n)) ∧
      (makeScreenList e f g s).2.requests
        = s.requests ++
          (List.range f.n.toNat).map (fun (i : Nat) => (i : Int) * (g.Duration / f.n))) := by
  obtain ⟨m, q, hmq, _, hqn, hlen, htimes, hreq, _, hm, _⟩ := sample_shape e f g s hn
  have hdiv : g.Duration.tdiv f.n = g.Duration / f.n := Int.tdiv_eq_ediv hd.le hn.le
  rw [hdiv] at htimes hreq
  rw [makeScreenList_requests e f g s hn hmake, hreq, htimes, ← ticks_zero_eq]
  have hpre : ∀ j : Nat, j ≤ f.n.toNat →
      ticks 0 (g.Duration / f.n) j <+: ticks 0 (g.Duration / f.n) f.n.toNat := by
    intro j hj
    obtain ⟨k, hk⟩ : ∃ k, f.n.toNat = j + k := ⟨f.n.toNat - j, by omega⟩
    rw [hk]
    exact ticks_prefix _ j k 0
  refine ⟨hpre m (by omega), ⟨_, rfl, hpre q hqn⟩, ?_⟩
  intro hok
  rw [← hdiv] at hok
  obtain ⟨herr, hlen'⟩ := sample_ok e f g s hn hok
  have hmn : m = f.n.toNat := hm herr
  have hqn' : q = f.n.toNat := by omega
  rw [hmn, hqn']
  exact ⟨herr, hlen', rfl, rfl⟩

theorem sample_timestamps_witness :
    0 < demoVideo.Duration ∧ 0 < flags3.n ∧ SliceMade demoExtern flags3 ∧
    FetchOk demoExtern (demoExtern.floatHeight demoVideo.Height demoVideo.Width)
      (demoVideo.Duration / flags3.n) flags3.n.toNat ∧
    (sample demoExtern flags3 demoVideo Sys.init).images.map Image.time
      = [0, 90000, 180000] ∧
    (makeScreenList demoExtern flags3 demoVideo Sys.init).2.requests
      = [0, 90000, 180000] :=
  have hmake : SliceMade demoExtern flags3 :=
    demoExtern_sliceMade flags3 (by decide) (by decide)
  have h := (sample_timestamps demoExtern flags3 demoVideo Sys.init (by decide)
    (by decide) hmake).2.2 (demoExtern_fetchOk _ _ _)
  ⟨by decide, by decide, hmake, demoExtern_fetchOk _ _ _, h.2.2.1.trans (by decide),
    h.2.2.2.trans (by decide)⟩

/-- C1 as stated fails: with `-n 4611686018427387904` on a video of 270
seconds, in a world where every collaborator call would succeed, line 95
panics and the run ends without a single timestamp. -/
theorem sample_timestamps_huge_count :
    0 < demoVideo.Duration ∧ (0 : Int) < 4611686018427387904 ∧
    makeScreenList demoExtern { flags3 with n := 4611686018427387904 } demoVideo Sys.init
      = (.panic "makeslice: cap out of range", Sys.init) ∧
    (makeScreenList demoExtern { flags3 with n := 4611686018427387904 } demoVideo
      Sys.init).2.requests = [] := by
  refine ⟨by decide, by decide, by decide, by decide⟩

/-- C2: for a positive duration and a positive count, whatever the
collaborators answer, the timestamps a run requests are non-decreasing in
the order of the requests, every one lies in `[0, duration)` and the first
one, when there is one, is 0; when line 95 returns there is a first one, and
the timestamps of the images built are an initial segment of the requested
ones. -/
theorem sample_timestamps_bounds (e : Extern) (f : Flags) (g : Generator)
    (hd : 0 < g.Duration) (hn : 0 < f.n) :
    ((makeScreenList e f g Sys.init).2.requests).Sorted (fun a b => a ≤ b) ∧
    (∀ t, ((makeScreenList e f g Sys.init).2.requests).head? = some t → t = 0) ∧
    (∀ t ∈ (makeScreenList e f g Sys.init).2.requests, 0 ≤ t ∧ t < g.Duration) ∧
    (SliceMade e f →
      ((makeScreenList e f g Sys.init).2.requests).head? = some 0 ∧
      (sample e f g Sys.init).images.map Image.time
        <+: (makeScreenList e f g Sys.init).2.requests) := by
  by_cases hmake : SliceMade e f
  · obtain ⟨m, q, hmq, hq1, hqn, _, htimes, hreq, _, _, _⟩ :=
      sample_shape e f g Sys.init hn
    rw [makeScreenList_requests e f g Sys.init hn hmake, hreq, htimes]
    simp only [Sys.init, List.nil_append]
    have hinc : 0 ≤ g.Duration.tdiv f.n := by
      rw [Int.tdiv_eq_ediv hd.le hn.le]; exact Int.ediv_nonneg hd.le hn.le
    have hhead : (ticks 0 (g.Duration.tdiv f.n) q).head? = some 0 := by
      obtain ⟨q', rfl⟩ : ∃ q', q = q' + 1 := ⟨q - 1, by omega⟩
      rw [ticks_succ]; rfl
    refine ⟨ticks_sorted _ hinc q, ?_, ?_, fun _ => ⟨hhead, ?_⟩⟩
    · intro t ht
      rw [hhead] at ht
      exact (Option.some.inj ht).symm
    · intro t ht
      obtain ⟨j, hj, rfl⟩ := mem_ticks_zero ht
      rw [Int.tdiv_eq_ediv hd.le hn.le]
      exact tick_lt_duration g.Duration f.n hd hn j (by omega)
    · obtain ⟨k, rfl⟩ : ∃ k, q = m + k := ⟨q - m, by omega⟩
      exact ticks_prefix _ m k 0
  · have hnone : (makeScreenList e f g Sys.init).2.requests = [] := by
      rw [(makeScreenList_of_not_made e f g Sys.init hmake).1]
      rfl
    rw [hnone]
    refine ⟨List.sorted_nil, ?_, ?_, fun h => absurd h hmake⟩
    · intro t ht
      simp at ht
    · intro t ht
      simp at ht

theorem sample_timestamps_bounds_witness :
    0 < demoVideo.Duration ∧ 0 < flags3.n ∧ SliceMade demoExtern flags3 ∧
    ((makeScreenList demoExtern flags3 demoVideo Sys.init).2.requests).head? = some 0 ∧
    (∀ t ∈ (makeScreenList demoExtern flags3 demoVideo Sys.init).2.requests,
      0 ≤ t ∧ t < 270000) :=
  have hmake : SliceMade demoExtern flags3 :=
    demoExtern_sliceMade flags3 (by decide) (by decide)
  have h := sample_timestamps_bounds demoExtern flags3 demoVideo (by decide) (by decide)
  ⟨by decide, by decide, hmake, (h.2.2.2 hmake).1, h.2.2.1⟩

/-! ## Claims on the helpers -/

/-- On positive arguments `divRoundUp` returns the ceiling of the quotient. -/
theorem divRoundUp_pos (a b : Int) (ha : 0 < a) (hb : 0 < b) :
    ∃ c : Int, divRoundUp a b = some c ∧
      c = ⌈(a : ℚ) / (b : ℚ)⌉ ∧
      c = a / b + (if a % b > 0 then 1 else 0) ∧
      a ≤ c * b ∧ ∀ c' : Int, a ≤ c' * b → c ≤ c' := by
  have hdm : b * (a / b) + a % b = a := Int.ediv_add_emod a b
  have hm0 : 0 ≤ a % b := Int.emod_nonneg a (by omega)
  have hmb : a % b < b := Int.emod_lt_of_pos a hb
  have hle : a ≤ (a / b + (if a % b > 0 then 1 else 0)) * b := by
    split_ifs with h
    · nlinarith
    · have : a % b = 0 := by omega
      nlinarith
  have hlt : (a / b + (if a % b > 0 then 1 else 0) - 1) * b < a := by
    split_ifs with h
    · nlinarith
    · nlinarith
  have hleast : ∀ c' : Int, a ≤ c' * b → a / b + (if a % b > 0 then 1 else 0) ≤ c' := by
    intro c' hc'
    by_contra hcon
    have h1 : c' ≤ a / b + (if a % b > 0 then 1 else 0) - 1 := by omega
    have h2 : c' * b ≤ (a / b + (if a % b > 0 then 1 else 0) - 1) * b :=
      mul_le_mul_of_nonneg_right h1 hb.le
    omega
  refine ⟨a / b + (if a % b > 0 then 1 else 0), ?_, ?_, rfl, hle, hleast⟩
  · unfold divRoundUp
    rw [if_neg (by omega)]
    simp only [Int.tdiv_eq_ediv ha.le hb.le, Int.tmod_eq_emod ha.le hb.le]
    split_ifs <;> simp
  · symm
    rw [Int.ceil_eq_iff]
    have hbq : (0 : ℚ) < (b : ℚ) := by exact_mod_cast hb
    constructor
    · rw [lt_div_iff₀ hbq]
      have : (((a / b + (if a % b > 0 then 1 else 0) - 1) * b : Int) : ℚ) < (a : ℚ) := by
        exact_mod_cast hlt
      push_cast at this ⊢
      linarith
    · rw [div_le_iff₀ hbq]
      exact_mod_cast hle

/-- C3: for positive `a` and `b`, `divRoundUp a b` returns the ceiling of
`a / b`: it is `floor(a / b)`, plus one exactly when `a mod b > 0`, and it is
the least integer `c` with `c * b ≥ a`. -/
theorem divRoundUp_ceil (a b : Int) (ha : 0 < a) (hb : 0 < b) :
    ∃ c : Int, divRoundUp a b = some c ∧
      c = ⌈(a : ℚ) / (b : ℚ)⌉ ∧
      c = a / b + (if a % b > 0 then 1 else 0) ∧
      a ≤ c * b ∧ ∀ c' : Int, a ≤ c' * b → c ≤ c' :=
  divRoundUp_pos a b ha hb

theorem divRoundUp_ceil_witness :
    (0 : Int) < 27 ∧ (0 : Int) < 28 ∧ (0 : Int) < 3 ∧
    divRoundUp 27 3 = some 9 ∧ divRoundUp 28 3 = some 10 ∧
    (∃ c : Int, divRoundUp 28 3 = some c ∧ c = ⌈((28 : Int) : ℚ) / ((3 : Int) : ℚ)⌉ ∧
      c = 28 / 3 + (if (28 : Int) % 3 > 0 then 1 else 0) ∧
      28 ≤ c * 3 ∧ ∀ c' : Int, 28 ≤ c' * 3 → c ≤ c') :=
  ⟨by decide, by decide, by decide, by decide, by decide,
    divRoundUp_ceil 28 3 (by decide) (by decide)⟩

theorem toDigitsCore_length_pos (fuel n : Nat) (ds : List Char) :
    ds.length + 1 ≤ (Nat.toDigitsCore 10 (fuel + 1) n ds).length := by
  induction fuel generalizing n ds with
  | zero => simp [Nat.toDigitsCore]
  | succ fuel ih =>
    rw [Nat.toDigitsCore]
    split
    · simp
    · have := ih (n / 10) (Nat.digitChar (n % 10) :: ds)
      simp at this ⊢
      omega

theorem repr_length_ge_two (n : Nat) (h : 10 ≤ n) : 2 ≤ (Nat.repr n).length := by
  unfold Nat.repr Nat.toDigits
  rw [Nat.toDigitsCore]
  rw [if_neg (by omega)]
  obtain ⟨m, rfl⟩ : ∃ m, n = m + 1 := ⟨n - 1, by omega⟩
  have := toDigitsCore_length_pos m ((m + 1) / 10) [Nat.digitChar ((m + 1) % 10)]
  simpa [String.length, List.asString] using this

theorem repr_length_one (n : Nat) (h : n < 10) : (Nat.repr n).length = 1 := by
  interval_cases n <;> rfl

/-- On non-negative numbers `%02d` is the decimal rendering left-padded with
zeros to two characters. -/
theorem fmt02_eq_zeroPadded2 (x : Int) (hx : 0 ≤ x) : fmt02 x = zeroPadded2 x := by
  obtain ⟨n, rfl⟩ := Int.eq_ofNat_of_zero_le hx
  have hs : toString (n : Int) = Nat.repr n := rfl
  unfold fmt02 zeroPadded2
  rw [hs]
  by_cases h : n < 10
  · rw [if_pos ⟨hx, by exact_mod_cast h⟩, repr_length_one n h]
    rfl
  · rw [if_neg (by omega)]
    have := repr_length_ge_two n (by omega)
    rw [show 2 - (Nat.repr n).length = 0 by omega]
    show Nat.repr n = String.mk [] ++ Nat.repr n
    rw [show String.mk [] = "" from rfl, String.empty_append]

theorem zeroPadded2_length (x : Int) : 2 ≤ (zeroPadded2 x).length := by
  unfold zeroPadded2
  rw [String.length_append]
  simp only [String.length, List.length_replicate]
  omega

/-- The clock fields that `ms2String` prints, in the spec's closed form. -/
theorem ms2String_fields (ms : Int) (h : 0 ≤ ms) :
    ms2String ms = fmt02 (ms / 1000 / 3600) ++ ":" ++ fmt02 (ms / 1000 % 3600 / 60)
      ++ ":" ++ fmt02 (ms / 1000 % 60) := by
  have hs : 0 ≤ ms / 1000 := Int.ediv_nonneg h (by decide)
  have h1 : ms.tdiv 1000 = ms / 1000 := Int.tdiv_eq_ediv h (by decide)
  have h2 : ((ms / 1000).tdiv 60).tdiv 60 = ms / 1000 / 3600 := by
    rw [Int.tdiv_eq_ediv hs (by decide),
      Int.tdiv_eq_ediv (Int.ediv_nonneg hs (by decide)) (by decide)]
    omega
  have h3 : ms / 1000 - ms / 1000 / 3600 * 60 * 60 = ms / 1000 % 3600 := by omega
  have h4 : (ms / 1000 % 3600).tdiv 60 = ms / 1000 % 3600 / 60 :=
    Int.tdiv_eq_ediv (Int.emod_nonneg _ (by decide)) (by decide)
  have h5 : ms / 1000 % 3600 - ms / 1000 % 3600 / 60 * 60 = ms / 1000 % 60 := by omega
  unfold ms2String
  simp only [h1, h2, h3, h4, h5]

/-! ## Claim on the clock format -/

/-- C4: for `ms ≥ 0`, `ms2String ms` is `HH:MM:SS` with `s = ms / 1000`,
`HH = s / 3600`, `MM = (s mod 3600) / 60`, `SS = s mod 60`, each field the
decimal rendering left-padded with zeros to two characters, hence of at least
two characters. -/
theorem ms2String_format (ms : Int) (h : 0 ≤ ms) :
    ms2String ms = zeroPadded2 (ms / 1000 / 3600) ++ ":"
      ++ zeroPadded2 (ms / 1000 % 3600 / 60) ++ ":" ++ zeroPadded2 (ms / 1000 % 60) ∧
    2 ≤ (zeroPadded2 (ms / 1000 / 3600)).length ∧
    2 ≤ (zeroPadded2 (ms / 1000 % 3600 / 60)).length ∧
    2 ≤ (zeroPadded2 (ms / 1000 % 60)).length := by
  have hs : 0 ≤ ms / 1000 := Int.ediv_nonneg h (by decide)
  refine ⟨?_, zeroPadded2_length _, zeroPadded2_length _, zeroPadded2_length _⟩
  rw [ms2String_fields ms h,
    fmt02_eq_zeroPadded2 _ (Int.ediv_nonneg hs (by decide)),
    fmt02_eq_zeroPadded2 _ (Int.ediv_nonneg (Int.emod_nonneg _ (by decide)) (by decide)),
    fmt02_eq_zeroPadded2 _ (Int.emod_nonneg _ (by decide))]

theorem ms2String_format_witness :
    (0 : Int) ≤ 3661000 ∧
    ms2String 0 = "00:00:00" ∧ ms2String 3661000 = "01:01:01" ∧
    ms2String 59999 = "00:00:59" ∧
    ms2String 3661000 = zeroPadded2 (3661000 / 1000 / 3600) ++ ":"
      ++ zeroPadded2 (3661000 / 1000 % 3600 / 60) ++ ":"
      ++ zeroPadded2 (3661000 / 1000 % 60) :=
  ⟨by decide, by decide, by decide, by decide,
    (ms2String_format 3661000 (by decide)).1⟩

/-! ## The argument list -/

theorem thumbArgs_length (thHeight x y : Int) (img : Image) :
    (thumbArgs thHeight x y img).length = 12 := rfl

theorem headArgs_length (g : Generator) (w h : Int) (size : String) :
    (headArgs g w h size).length = 43 := rfl

theorem getElem?_append_of_some {α : Type} (l l' : List α) (n : Nat) (a : α)
    (h : l[n]? = some a) : (l ++ l')[n]? = some a := by
  have hlt : n < l.length := by
    by_contra hcon
    rw [List.getElem?_eq_none (by omega)] at h
    exact Option.noConfusion h
  rw [List.getElem?_append_left hlt, h]

theorem gridArgs_cons (tpr thHeight x y : Int) (img : Image) (rest : List Image) :
    gridArgs tpr thHeight x y (img :: rest)
      = thumbArgs thHeight x y img
        ++ gridArgs tpr thHeight (nextCell tpr (x, y)).1 (nextCell tpr (x, y)).2 rest := by
  unfold nextCell
  rw [gridArgs]
  split_ifs <;> rfl

/-- The `i`-th block of twelve arguments of the grid loop is the one of the
`i`-th image, at the loop variables reached after `i` steps. -/
theorem gridArgs_getElem (tpr thHeight : Int) :
    ∀ (images : List Image) (x y : Int) (i j : Nat) (img : Image),
      images[i]? = some img → j < 12 →
      (gridArgs tpr thHeight x y images)[12 * i + j]?
        = (thumbArgs thHeight (cellFrom tpr (x, y) i).1 (cellFrom tpr (x, y) i).2 img)[j]? := by
  intro images
  induction images with
  | nil => intro x y i j img h; simp at h
  | cons a rest ih =>
    intro x y i j img h hj
    rw [gridArgs_cons]
    cases i with
    | zero =>
      simp only [List.getElem?_cons_zero, Option.some.injEq] at h
      subst h
      rw [List.getElem?_append_left (by rw [thumbArgs_length]; omega),
        show 12 * 0 + j = j by omega]
      rfl
    | succ i =>
      simp only [List.getElem?_cons_succ] at h
      rw [List.getElem?_append_right (by rw [thumbArgs_length]; omega), thumbArgs_length,
        show 12 * (i + 1) + j - 12 = 12 * i + j by omega,
        ih _ _ i j img h hj]
      rfl

/-- With at least one column, the loop variables at the `i`-th thumbnail are
column `i mod columns` and row `i div columns`. -/
theorem cellFrom_eq (tpr : Int) (htpr : 0 < tpr) :
    ∀ (i : Nat) (x y : Int), 0 ≤ x → x < tpr →
      cellFrom tpr (x, y) i = ((x + i) % tpr, y + (x + i) / tpr) := by
  intro i
  induction i with
  | zero =>
    intro x y hx0 hx
    simp only [cellFrom, Function.iterate_zero, id_eq, Nat.cast_zero, add_zero]
    rw [Int.emod_eq_of_lt hx0 hx, Int.ediv_eq_zero_of_lt hx0 hx, add_zero]
  | succ i ih =>
    intro x y hx0 hx
    have hstep : cellFrom tpr (x, y) (i + 1) = cellFrom tpr (nextCell tpr (x, y)) i := by
      simp only [cellFrom, Function.iterate_succ_apply]
    rw [hstep]
    unfold nextCell
    by_cases h : x + 1 = tpr
    · rw [if_pos h, ih 0 (y + 1) (le_refl 0) htpr]
      have e1 : x + ((i + 1 : Nat) : Int) = (i : Int) + tpr := by push_cast; omega
      rw [e1, zero_add, Int.add_emod_self, Int.add_ediv_of_dvd_right (dvd_refl tpr),
        Int.ediv_self (by omega)]
      congr 1
      ring
    · rw [if_neg h, ih (x + 1) y (by omega) (by omega)]
      have e1 : x + ((i + 1 : Nat) : Int) = x + 1 + (i : Int) := by push_cast; ring
      rw [e1]

theorem cellFrom_zero (tpr : Int) (htpr : 0 < tpr) (i : Nat) :
    cellFrom tpr (0, 0) i = ((i : Int) % tpr, (i : Int) / tpr) := by
  rw [cellFrom_eq tpr htpr i 0 0 (le_refl 0) htpr]
  simp

/-- Position `43 + 12 i + j` of the argument list holds argument `j` of the
`i`-th thumbnail. -/
theorem buildArgs_thumb (f : Flags) (g : Generator) (thHeight numRows : Int)
    (size : String) (images : List Image) (i j : Nat) (img : Image) (a : String)
    (himg : images[i]? = some img)
    (ha : (thumbArgs thHeight (cellFrom f.thumbnailsPerRow (0, 0) i).1
      (cellFrom f.thumbnailsPerRow (0, 0) i).2 img)[j]? = some a) :
    (buildArgs f g thHeight numRows size images)[43 + 12 * i + j]? = some a := by
  have hj : j < 12 := by
    by_contra hcon
    rw [List.getElem?_eq_none (by rw [thumbArgs_length]; omega)] at ha
    exact Option.noConfusion ha
  unfold buildArgs
  apply getElem?_append_of_some
  rw [List.getElem?_append_right (by rw [headArgs_length]; omega), headArgs_length,
    show 43 + 12 * i + j - 43 = 12 * i + j by omega,
    gridArgs_getElem f.thumbnailsPerRow thHeight images 0 0 i j img himg hj]
  exact ha

theorem buildArgs_head (f : Flags) (g : Generator) (thHeight numRows : Int)
    (size : String) (images : List Image) (k : Nat) (a : String)
    (ha : (headArgs g (canvasWidth f.thumbnailsPerRow) (canvasHeight numRows thHeight)
      size)[k]? = some a) :
    (buildArgs f g thHeight numRows size images)[k]? = some a := by
  unfold buildArgs
  rw [List.append_assoc]
  exact getElem?_append_of_some _ _ k a ha

/-- A run whose sampling loop, row count and `os.Stat` succeed runs `convert`
once, with the argument list built from the sampled images. -/
theorem makeScreenList_converts (e : Extern) (f : Flags) (g : Generator) (s : Sys)
    (hn : 0 < f.n) (hmake : SliceMade e f) (herr : (sample e f g s).err = none)
    (numRows : Int)
    (hrows : divRoundUp (sample e f g s).images.length f.thumbnailsPerRow = some numRows)
    (size : String) (hsize : fileSize e g.Filename = some size) :
    (makeScreenList e f g s).2.converts
      = s.converts ++ [buildArgs f g (e.floatHeight g.Height g.Width) numRows size
          (sample e f g s).images] := by
  obtain ⟨_, _, _, _, _, _, _, _, hconv, _, _⟩ := sample_shape e f g s hn
  rw [makeScreenList_of_made e f g s hn hmake]
  simp only [herr, hrows, hsize]
  split <;> simp [runDeferred_converts, hconv]

theorem fileSize_of_stat (e : Extern) (name : String) (sz : Int)
    (h : e.stat name = .ok sz) :
    fileSize e name = some (toString ((sz.tdiv 1024).tdiv 1024) ++ " Mb") := by
  simp [fileSize, h]

theorem divRoundUp_of_ne (a b : Int) (hb : b ≠ 0) : ∃ c, divRoundUp a b = some c := by
  unfold divRoundUp
  rw [if_neg hb]
  split_ifs
  · exact ⟨_, rfl⟩
  · exact ⟨_, rfl⟩

/-- The argument list of a complete run: with line 95 returning, `n`
positive, the columns not zero, no failure in the sampling loop and `os.Stat`
succeeding, `convert` is run exactly once, on the list built from the
sampled images. -/
theorem makeScreenList_args_of_ne (e : Extern) (f : Flags) (g : Generator)
    (hn : 0 < f.n) (hmake : SliceMade e f) (hc : f.thumbnailsPerRow ≠ 0)
    (hok : FetchOk e (e.floatHeight g.Height g.Width) (g.Duration.tdiv f.n) f.n.toNat)
    (sz : Int) (hstat : e.stat g.Filename = .ok sz) :
    ∃ rows : Int, divRoundUp f.n f.thumbnailsPerRow = some rows ∧
      (makeScreenList e f g Sys.init).2.converts
        = [buildArgs f g (e.floatHeight g.Height g.Width) rows
            (toString ((sz.tdiv 1024).tdiv 1024) ++ " Mb")
            (sample e f g Sys.init).images] := by
  obtain ⟨herr, hlen⟩ := sample_ok e f g Sys.init hn hok
  obtain ⟨rows, hrows⟩ := divRoundUp_of_ne f.n f.thumbnailsPerRow hc
  refine ⟨rows, hrows, ?_⟩
  rw [makeScreenList_converts e f g Sys.init hn hmake herr rows (by rw [hlen]; exact hrows) _
    (fileSize_of_stat e g.Filename sz hstat)]
  rfl

/-! ## Every argument list a run can build -/

/-- A run from the initial state either never runs `convert`, or runs it
exactly once: then line 95 has returned, the sampling loop has ended without
an error, the row count and the size text exist, and the list is the one
built from them. -/
theorem makeScreenList_converts_cases (e : Extern) (f : Flags) (g : Generator) :
    (makeScreenList e f g Sys.init).2.converts = [] ∨
    ∃ (numRows : Int) (size : String),
      0 < f.n ∧ (sample e f g Sys.init).err = none ∧
      divRoundUp (sample e f g Sys.init).images.length f.thumbnailsPerRow = some numRows ∧
      fileSize e g.Filename = some size ∧
      (makeScreenList e f g Sys.init).2.converts
        = [buildArgs f g (e.floatHeight g.Height g.Width) numRows size
            (sample e f g Sys.init).images] := by
  by_cases hmake : SliceMade e f
  swap
  · left
    rw [(makeScreenList_of_not_made e f g Sys.init hmake).1]
    rfl
  by_cases hzero : f.n = 0
  · left
    obtain ⟨h0, hmax, halloc⟩ := hmake
    unfold makeScreenList
    rw [if_neg (by omega), if_neg (by simp [halloc]), if_pos hzero]
    rfl
  have hn : 0 < f.n := by
    have := hmake.1
    omega
  obtain ⟨_, _, _, _, _, _, _, _, hconv, _, _⟩ := sample_shape e f g Sys.init hn
  rcases herr : (sample e f g Sys.init).err with _ | err
  · rcases hrows : divRoundUp (sample e f g Sys.init).images.length f.thumbnailsPerRow
      with _ | numRows
    · left
      rw [makeScreenList_of_made e f g Sys.init hn hmake]
      simp only [herr, hrows, runDeferred_converts, hconv]
      rfl
    · rcases hsize : fileSize e g.Filename with _ | size
      · left
        rw [makeScreenList_of_made e f g Sys.init hn hmake]
        simp only [herr, hrows, hsize, hconv]
        rfl
      · right
        refine ⟨numRows, size, hn, rfl, rfl, rfl, ?_⟩
        rw [makeScreenList_converts e f g Sys.init hn hmake herr numRows hrows size hsize]
        rfl
  · left
    rw [makeScreenList_of_made e f g Sys.init hn hmake]
    simp only [herr, runDeferred_converts, hconv]
    rfl

/-- Every argument list a run hands to `convert`: `n` is positive, there are
`n` images, the row count and the size text exist, and the list is the one
built from them. -/
theorem converts_mem (e : Extern) (f : Flags) (g : Generator) (args : List String)
    (hargs : args ∈ (makeScreenList e f g Sys.init).2.converts) :
    0 < f.n ∧ ((sample e f g Sys.init).images.length : Int) = f.n ∧
    ∃ (numRows : Int) (size : String),
      divRoundUp f.n f.thumbnailsPerRow = some numRows ∧
      fileSize e g.Filename = some size ∧
      args = buildArgs f g (e.floatHeight g.Height g.Width) numRows size
        (sample e f g Sys.init).images := by
  rcases makeScreenList_converts_cases e f g with h | ⟨numRows, size, hn, herr, hrows, hsize, h⟩
  · rw [h] at hargs
    exact absurd hargs (List.not_mem_nil _)
  · rw [h, List.mem_singleton] at hargs
    obtain ⟨m, q, _, _, _, hlen, _, _, _, hm, _⟩ := sample_shape e f g Sys.init hn
    have hlen' : ((sample e f g Sys.init).images.length : Int) = f.n := by
      rw [hlen, hm herr]; omega
    rw [hlen'] at hrows
    exact ⟨hn, hlen', numRows, size, hrows, hsize, hargs⟩

/-- A run that hands `convert` an argument list has passed line 95: `n` is
at most `maxImages`. -/
theorem converts_mem_made (e : Extern) (f : Flags) (g : Generator) (args : List String)
    (hargs : args ∈ (makeScreenList e f g Sys.init).2.converts) : SliceMade e f := by
  by_contra hmake
  rw [(makeScreenList_of_not_made e f g Sys.init hmake).1] at hargs
  exact absurd hargs (List.not_mem_nil _)

theorem gridArgs_length (tpr thHeight : Int) :
    ∀ (images : List Image) (x y : Int),
      (gridArgs tpr thHeight x y images).length = 12 * images.length := by
  intro images
  induction images with
  | nil => intro x y; rfl
  | cons a rest ih =>
    intro x y
    rw [gridArgs_cons, List.length_append, thumbArgs_length, ih, List.length_cons]
    omega

/-- When the layout call is reached without a usable divisor, the run ends in
the division panic. -/
theorem makeScreenList_layout_panic (e : Extern) (f : Flags) (g : Generator) (s : Sys)
    (a b : Int) (h : layoutCall e f g s = some (a, b)) (hdiv : divRoundUp a b = none) :
    (makeScreenList e f g s).1 = .panic "integer divide by zero" := by
  unfold layoutCall at h
  unfold makeScreenList
  by_cases hcap : f.n < 0 ∨ maxImages < f.n
  · simp [hcap] at h
  by_cases halloc : e.allocImages f.n = false
  · simp [hcap, halloc] at h
  by_cases hzero : f.n = 0
  · simp [hcap, halloc, hzero] at h
  rw [if_neg hcap, if_neg halloc, if_neg hzero] at h ⊢
  rcases herr : (sample e f g s).err with _ | err
  · simp only [herr, Option.some.injEq, Prod.mk.injEq] at h
    obtain ⟨ha, hb⟩ := h
    subst ha hb
    simp only [hdiv, herr]
  · simp [herr] at h

/-! ## Wrap-around and the loop variables -/

theorem wrapInt_of_inRange (x : Int) (h0 : -9223372036854775808 ≤ x)
    (h1 : x < 9223372036854775808) : wrapInt x = x := by
  unfold wrapInt
  omega

/-- With at least one column and the exact width below `2^63`, line 119
computes the exact width. -/
theorem canvasWidth_exact (tpr : Int) (hc : 0 < tpr)
    (hw : tpr * 256 + (tpr + 1) * 16 < 2 ^ 63) :
    canvasWidth tpr = tpr * 256 + (tpr + 1) * 16 := by
  have h63 : (2 : Int) ^ 63 = 9223372036854775808 := by norm_num
  rw [h63] at hw
  unfold canvasWidth thWidth thSpacing
  rw [wrapInt_of_inRange (tpr * 256) (by omega) (by omega),
    wrapInt_of_inRange (tpr + 1) (by omega) (by omega),
    wrapInt_of_inRange ((tpr + 1) * 16) (by omega) (by omega),
    wrapInt_of_inRange _ (by omega) (by omega)]

/-- The loop variables of the grid loop stay between 0 and the index of the
thumbnail, whatever the columns. -/
theorem cellFrom_bounds (tpr : Int) :
    ∀ (i : Nat) (x y : Int), 0 ≤ x → 0 ≤ y →
      0 ≤ (cellFrom tpr (x, y) i).1 ∧ (cellFrom tpr (x, y) i).1 ≤ x + i ∧
      0 ≤ (cellFrom tpr (x, y) i).2 ∧ (cellFrom tpr (x, y) i).2 ≤ y + i := by
  intro i
  induction i with
  | zero =>
    intro x y hx hy
    simp only [cellFrom, Function.iterate_zero, id_eq, Nat.cast_zero, add_zero]
    omega
  | succ i ih =>
    intro x y hx hy
    have hstep : cellFrom tpr (x, y) (i + 1) = cellFrom tpr (nextCell tpr (x, y)) i := by
      simp only [cellFrom, Function.iterate_succ_apply]
    rw [hstep]
    unfold nextCell
    by_cases h : x + 1 = tpr
    · rw [if_pos h]
      have := ih 0 (y + 1) (le_refl 0) (by omega)
      push_cast
      omega
    · rw [if_neg h]
      have := ih (x + 1) y (by omega) hy
      push_cast
      omega

/-- In a run that hands `convert` an argument list, the positions computed
from the loop variable `x` (lines 158-163) are below `2^63`: the arithmetic
of these lines does not wrap in `x`. -/
theorem geometry_x_in_range (e : Extern) (f : Flags) (g : Generator) (args : List String)
    (hargs : args ∈ (makeScreenList e f g Sys.init).2.converts)
    (i : Nat) (hi : (i : Int) < f.n) :
    0 ≤ (cellFrom f.thumbnailsPerRow (0, 0) i).1 ∧
    (cellFrom f.thumbnailsPerRow (0, 0) i).1 * (thWidth + thSpacing) + thSpacing + 6
      < 2 ^ 63 := by
  obtain ⟨_, hmax, _⟩ := converts_mem_made e f g args hargs
  obtain ⟨h0, h1, _, _⟩ := cellFrom_bounds f.thumbnailsPerRow i 0 0 (le_refl 0) (le_refl 0)
  have h63 : (2 : Int) ^ 63 = 9223372036854775808 := by norm_num
  rw [h63]
  unfold maxImages at hmax
  unfold thWidth thSpacing
  omega

/-! ## Claims on the layout -/

/-- C5, as the code has it: in every argument list given to `convert`, for
`columns ≥ 1`, the header panel is sized `canvasWidth x 128` and the grid
panel `canvasWidth x canvasHeight`, where the thumbnail count `n` is at
least 1, `rows = ceil(n / columns)`,
`canvasHeight = rows * thumbHeight + (rows + 1) * 16`, and `canvasWidth` is
the value line 119 computes in Go's `int` arithmetic, which is
`columns * 256 + (columns + 1) * 16` whenever that is below `2^63`. -/
theorem layout_canvas (e : Extern) (f : Flags) (g : Generator) (args : List String)
    (hargs : args ∈ (makeScreenList e f g Sys.init).2.converts)
    (hc : 0 < f.thumbnailsPerRow) :
    1 ≤ f.n ∧
    ∃ rows W : Int,
      divRoundUp f.n f.thumbnailsPerRow = some rows ∧
      rows = ⌈(f.n : ℚ) / (f.thumbnailsPerRow : ℚ)⌉ ∧
      args[2]? = some (fmtSize W 128) ∧
      args[37]? = some (fmtSize W (rows * e.floatHeight g.Height g.Width + (rows + 1) * 16)) ∧
      W = canvasWidth f.thumbnailsPerRow ∧
      (f.thumbnailsPerRow * 256 + (f.thumbnailsPerRow + 1) * 16 < 2 ^ 63 →
        W = f.thumbnailsPerRow * 256 + (f.thumbnailsPerRow + 1) * 16) := by
  obtain ⟨hn, _, numRows, size, hrows, _, rfl⟩ := converts_mem e f g args hargs
  obtain ⟨c, hc1, hceil, _⟩ := divRoundUp_pos f.n f.thumbnailsPerRow hn hc
  rw [hrows] at hc1
  cases hc1
  exact ⟨by omega, numRows, _, hrows, hceil, buildArgs_head _ _ _ _ _ _ 2 _ rfl,
    buildArgs_head _ _ _ _ _ _ 37 _ rfl, rfl,
    fun hw => canvasWidth_exact f.thumbnailsPerRow hc hw⟩

theorem layout_canvas_witness :
    ∃ args : List String,
      args ∈ (makeScreenList demoExtern defaultFlags demoVideo Sys.init).2.converts ∧
      0 < defaultFlags.thumbnailsPerRow ∧
      defaultFlags.thumbnailsPerRow * 256 + (defaultFlags.thumbnailsPerRow + 1) * 16
        < 2 ^ 63 ∧
      divRoundUp 27 3 = some 9 ∧
      args[2]? = some "832x128" ∧ args[37]? = some "832x1456" := by
  obtain ⟨rows0, _, hconv⟩ := makeScreenList_args_of_ne demoExtern defaultFlags demoVideo
    (by decide) (demoExtern_sliceMade _ (by decide) (by decide)) (by decide)
    (demoExtern_fetchOk _ _ _) 314572800 rfl
  have hmem : buildArgs defaultFlags demoVideo
      (demoExtern.floatHeight demoVideo.Height demoVideo.Width) rows0
      (toString (((314572800 : Int).tdiv 1024).tdiv 1024) ++ " Mb")
      (sample demoExtern defaultFlags demoVideo Sys.init).images
      ∈ (makeScreenList demoExtern defaultFlags demoVideo Sys.init).2.converts := by
    rw [hconv]
    exact List.mem_singleton.mpr rfl
  have hw : defaultFlags.thumbnailsPerRow * 256 + (defaultFlags.thumbnailsPerRow + 1) * 16
      < 2 ^ 63 := by decide
  obtain ⟨_, rows, W, hrows, _, h2, h37, _, hW⟩ :=
    layout_canvas demoExtern defaultFlags demoVideo _ hmem (by decide)
  have h9 : divRoundUp 27 3 = some 9 := by decide
  have hr : rows = 9 := by
    have h' : divRoundUp 27 3 = some rows := hrows
    rw [h9] at h'
    exact (Option.some.inj h').symm
  have hW' := hW hw
  subst hr hW'
  exact ⟨_, hmem, by decide, hw, h9, h2.trans (by decide), h37.trans (by decide)⟩

/-- C5 as stated fails: with `-thumbnails-per-row 36028797018963968` (and
`-n 3`) the run completes and the width it gives both panels is
`-8646911284551352304`, line 119 having wrapped, not
`columns * 256 + (columns + 1) * 16 = 9799832789158199312`. -/
theorem layout_canvas_wraps :
    (1 : Int) ≤ 3 ∧ (1 : Int) ≤ 36028797018963968 ∧
    (makeScreenList demoExtern { flags3 with thumbnailsPerRow := 36028797018963968 }
      demoVideo Sys.init).1 = .ok ∧
    (makeScreenList demoExtern { flags3 with thumbnailsPerRow := 36028797018963968 }
      demoVideo Sys.init).2.converts.map (fun args => (args[2]?, args[37]?))
      = [(some "-8646911284551352304x128", some "-8646911284551352304x176")] ∧
    fmtSize ((36028797018963968 : Int) * 256 + (36028797018963968 + 1) * 16) 128
      = "9799832789158199312x128" := by
  refine ⟨by decide, by decide, by decide, by decide, by decide⟩

/-- C6: in every argument list given to `convert`, for `columns ≥ 1`, the
`i`-th thumbnail (`i < n`; its file is argument `43 + 12 i`) is placed
row-major: its `-geometry` argument is `+X+Y` with
`X = (i mod columns) * (256 + 16) + 16` and
`Y = (i div columns) * (thumbHeight + 16) + 16`. -/
theorem thumbnail_geometry (e : Extern) (f : Flags) (g : Generator) (args : List String)
    (hargs : args ∈ (makeScreenList e f g Sys.init).2.converts)
    (hc : 0 < f.thumbnailsPerRow) (i : Nat) (hi : (i : Int) < f.n) :
    ∃ img : Image,
      (sample e f g Sys.init).images[i]? = some img ∧
      args[43 + 12 * i]? = some img.filename ∧
      args[43 + 12 * i + 1]? = some "-geometry" ∧
      args[43 + 12 * i + 2]? = some
        ("+" ++ toString ((i : Int) % f.thumbnailsPerRow * (256 + 16) + 16) ++ "+"
          ++ toString ((i : Int) / f.thumbnailsPerRow
              * (e.floatHeight g.Height g.Width + 16) + 16)) := by
  obtain ⟨hn, hlen, numRows, size, _, _, rfl⟩ := converts_mem e f g args hargs
  have hlt : i < (sample e f g Sys.init).images.length := by omega
  have himg := List.getElem?_eq_getElem hlt
  refine ⟨_, himg, ?_, ?_, ?_⟩
  · exact buildArgs_thumb _ _ _ _ _ _ i 0 _ _ himg rfl
  · exact buildArgs_thumb _ _ _ _ _ _ i 1 _ _ himg rfl
  · apply buildArgs_thumb _ _ _ _ _ _ i 2 _ _ himg
    rw [cellFrom_zero f.thumbnailsPerRow hc i]
    rfl

theorem thumbnail_geometry_witness :
    ∃ args : List String,
      args ∈ (makeScreenList demoExtern { defaultFlags with n := 5, thumbnailsPerRow := 2 }
        demoVideo Sys.init).2.converts ∧
      (0 : Int) < 2 ∧ ((3 : Nat) : Int) < 5 ∧
      args[43 + 12 * 3]? = some "/tmp/screengen3" ∧
      args[43 + 12 * 3 + 1]? = some "-geometry" ∧
      args[43 + 12 * 3 + 2]? = some "+288+176" := by
  have hmem : buildArgs { defaultFlags with n := 5, thumbnailsPerRow := 2 } demoVideo 144 3
      "300 Mb"
      (sample demoExtern { defaultFlags with n := 5, thumbnailsPerRow := 2 } demoVideo
        Sys.init).images
      ∈ (makeScreenList demoExtern { defaultFlags with n := 5, thumbnailsPerRow := 2 }
        demoVideo Sys.init).2.converts := by decide
  obtain ⟨img, h2, h3, h4, h5⟩ :=
    thumbnail_geometry demoExtern { defaultFlags with n := 5, thumbnailsPerRow := 2 }
      demoVideo _ hmem (by decide) 3 (by decide)
  have himg : img = { time := 162000, filename := "/tmp/screengen3" } := by
    have : (sample demoExtern { defaultFlags with n := 5, thumbnailsPerRow := 2 }
        demoVideo Sys.init).images[3]?
        = some { time := 162000, filename := "/tmp/screengen3" } := by decide
    rw [this] at h2
    exact (Option.some.inj h2).symm
  subst himg
  exact ⟨_, hmem, by decide, by decide, h3, h4, h5.trans (by decide)⟩

/-- C9: in every argument list given to `convert`, the arguments of every
thumbnail draw its label `ms2String` of its timestamp twice: first with fill
black at `(px, py)`, the point 5 px right of and below the thumbnail corner
named by its `-geometry`, then with fill white at `(px + 1, py + 1)`. -/
theorem label_double_draw (e : Extern) (f : Flags) (g : Generator) (args : List String)
    (hargs : args ∈ (makeScreenList e f g Sys.init).2.converts)
    (i : Nat) (hi : (i : Int) < f.n) :
    ∃ (img : Image) (px py : Int),
      (sample e f g Sys.init).images[i]? = some img ∧
      args[43 + 12 * i]? = some img.filename ∧
      args[43 + 12 * i + 2]? = some ("+" ++ toString (px - 5) ++ "+" ++ toString (py - 5)) ∧
      args[43 + 12 * i + 4]? = some "-fill" ∧
      args[43 + 12 * i + 5]? = some "black" ∧
      args[43 + 12 * i + 6]? = some "-draw" ∧
      args[43 + 12 * i + 7]? = some
        ("text " ++ toString px ++ "," ++ toString py ++ " '" ++ ms2String img.time ++ "'") ∧
      args[43 + 12 * i + 8]? = some "-fill" ∧
      args[43 + 12 * i + 9]? = some "white" ∧
      args[43 + 12 * i + 10]? = some "-draw" ∧
      args[43 + 12 * i + 11]? = some
        ("text " ++ toString (px + 1) ++ "," ++ toString (py + 1) ++ " '"
          ++ ms2String img.time ++ "'") := by
  obtain ⟨hn, hlen, numRows, size, _, _, rfl⟩ := converts_mem e f g args hargs
  have hlt : i < (sample e f g Sys.init).images.length := by omega
  have himg := List.getElem?_eq_getElem hlt
  refine ⟨_,
    (cellFrom f.thumbnailsPerRow (0, 0) i).1 * (thWidth + thSpacing) + thSpacing + 5,
    (cellFrom f.thumbnailsPerRow (0, 0) i).2 * (e.floatHeight g.Height g.Width + thSpacing)
      + thSpacing + 5,
    himg, ?_, ?_, ?_, ?_, ?_, ?_, ?_, ?_, ?_, ?_⟩
  · exact buildArgs_thumb _ _ _ _ _ _ i 0 _ _ himg rfl
  · apply buildArgs_thumb _ _ _ _ _ _ i 2 _ _ himg
    simp only [add_sub_cancel_right]
    rfl
  · exact buildArgs_thumb _ _ _ _ _ _ i 4 _ _ himg rfl
  · exact buildArgs_thumb _ _ _ _ _ _ i 5 _ _ himg rfl
  · exact buildArgs_thumb _ _ _ _ _ _ i 6 _ _ himg rfl
  · exact buildArgs_thumb _ _ _ _ _ _ i 7 _ _ himg rfl
  · exact buildArgs_thumb _ _ _ _ _ _ i 8 _ _ himg rfl
  · exact buildArgs_thumb _ _ _ _ _ _ i 9 _ _ himg rfl
  · exact buildArgs_thumb _ _ _ _ _ _ i 10 _ _ himg rfl
  · apply buildArgs_thumb _ _ _ _ _ _ i 11 _ _ himg
    have h56 : ∀ a : Int, a + 5 + 1 = a + 6 := fun a => by ring
    simp only [h56]
    rfl

theorem label_double_draw_witness :
    ∃ (args : List String) (px py : Int),
      args ∈ (makeScreenList demoExtern flags3 demoVideo Sys.init).2.converts ∧
      ((1 : Nat) : Int) < flags3.n ∧
      args[43 + 12 * 1 + 5]? = some "black" ∧
      args[43 + 12 * 1 + 7]? = some
        ("text " ++ toString px ++ "," ++ toString py ++ " '" ++ "00:01:30" ++ "'") ∧
      args[43 + 12 * 1 + 9]? = some "white" ∧
      args[43 + 12 * 1 + 11]? = some
        ("text " ++ toString (px + 1) ++ "," ++ toString (py + 1) ++ " '" ++ "00:01:30"
          ++ "'") := by
  have hmem : buildArgs flags3 demoVideo 144 1 "300 Mb"
      (sample demoExtern flags3 demoVideo Sys.init).images
      ∈ (makeScreenList demoExtern flags3 demoVideo Sys.init).2.converts := by decide
  obtain ⟨img, px, py, h2, _, _, _, h5, _, h7, _, h9, _, h11⟩ :=
    label_double_draw demoExtern flags3 demoVideo _ hmem 1 (by decide)
  have himg : img = { time := 90000, filename := "/tmp/screengen1" } := by
    have : (sample demoExtern flags3 demoVideo Sys.init).images[1]?
        = some { time := 90000, filename := "/tmp/screengen1" } := by decide
    rw [this] at h2
    exact (Option.some.inj h2).symm
  subst himg
  exact ⟨_, px, py, hmem, by decide, h5, h7, h9, h11⟩

/-! ## Claims on failures -/

/-- C7: temp files survive two failures.  When `os.Stat` fails, `fileSize`
ends the process with `log.Fatal` and the deferred removals never run: all
three temp files of a run with `-n 3` stay on disk.  When `png.Encode` fails
in the second `writePng`, the file that `TempFile` had just created has no
deferred removal: it stays on disk after `makeScreenList` has returned the
error and removed the first file. -/
theorem temp_files_left_behind :
    makeScreenList statFailExtern flags3 demoVideo Sys.init
      = (.fatal "can't get file size",
          { requests := [0, 90000, 180000],
            disk := ["/tmp/screengen0", "/tmp/screengen1", "/tmp/screengen2"],
            converts := [] }) ∧
    makeScreenList encodeFailExtern flags3 demoVideo Sys.init
      = (.error "can't write thumbnail: no space left on device",
          { requests := [0, 90000], disk := ["/tmp/screengen1"], converts := [] }) := by
  constructor <;> decide

/-- C10: when line 95 returns, the iterations before the `k`-th meet no
failure and the `k`-th frame request fails, `makeScreenList` returns the
extraction error, the frames requested are exactly those of the timestamps
`0, inc, ..., k * inc` in this order (`inc` the quotient `Duration / n` as
Go computes it), and `convert` is not run. -/
theorem extraction_failure_aborts (e : Extern) (f : Flags) (g : Generator)
    (hn : 0 < f.n) (hmake : SliceMade e f) (k : Nat) (hk : (k : Int) < f.n)
    (hok : FetchOk e (e.floatHeight g.Height g.Width) (g.Duration.tdiv f.n) k)
    (msg : String)
    (hfail : e.imageWxH k ((k : Int) * g.Duration.tdiv f.n) thWidth
      (e.floatHeight g.Height g.Width) = .error msg) :
    (makeScreenList e f g Sys.init).1 = .error ("can't extract image: " ++ msg) ∧
    (makeScreenList e f g Sys.init).2.requests
      = (List.range (k + 1)).map (fun (j : Nat) => (j : Int) * g.Duration.tdiv f.n) ∧
    (makeScreenList e f g Sys.init).2.converts = [] := by
  have hfl := fetchLoop_fail e (e.floatHeight g.Height g.Width) (g.Duration.tdiv f.n) k msg
    f.n.toNat 0 [] Sys.init (by simp) (Nat.zero_le k)
    (by simp only [List.length_nil]; omega) hok hfail
  have herr : (sample e f g Sys.init).err = some ("can't extract image: " ++ msg) := hfl.1
  have hlen : (sample e f g Sys.init).images.length = k := hfl.2
  obtain ⟨m, q, _, _, _, hm, _, hreq, hconv, _, hq⟩ := sample_shape e f g Sys.init hn
  have hqk : q = k + 1 := by
    rw [hq (by rw [herr]; exact Option.noConfusion), ← hm, hlen]
  refine ⟨?_, ?_, ?_⟩
  · rw [makeScreenList_of_made e f g Sys.init hn hmake]
    simp only [herr]
  · rw [makeScreenList_requests e f g Sys.init hn hmake, hreq, hqk, ticks_zero_eq]
    rfl
  · rw [makeScreenList_of_made e f g Sys.init hn hmake]
    simp only [herr, runDeferred_converts, hconv]
    rfl

theorem extraction_failure_aborts_witness :
    0 < flags3.n ∧ SliceMade frameFailExtern flags3 ∧ ((2 : Nat) : Int) < flags3.n ∧
    FetchOk frameFailExtern (frameFailExtern.floatHeight demoVideo.Height demoVideo.Width)
      (demoVideo.Duration.tdiv flags3.n) 2 ∧
    makeScreenList frameFailExtern flags3 demoVideo Sys.init
      = (.error "can't extract image: seek failed",
          { requests := [0, 90000, 180000], disk := [], converts := [] }) ∧
    (makeScreenList frameFailExtern flags3 demoVideo Sys.init).2.converts = [] :=
  have hmake : SliceMade frameFailExtern flags3 := ⟨by decide, by decide, rfl⟩
  have hok : FetchOk frameFailExtern
      (frameFailExtern.floatHeight demoVideo.Height demoVideo.Width)
      (demoVideo.Duration.tdiv flags3.n) 2 := fun k hk =>
    ⟨{ id := k }, "/tmp/screengen" ++ toString k, by
        show (if k = 2 then _ else _) = _
        rw [if_neg (by omega)], rfl, rfl, rfl⟩
  ⟨by decide, hmake, by decide, hok, by decide,
    (extraction_failure_aborts frameFailExtern flags3 demoVideo (by decide) hmake 2
      (by decide) hok "seek failed" rfl).2.2⟩

/-! ## Claims on the flags and the header -/

/-- C11, as the code has it: whenever a run reaches the layout call of line
118, the thumbnail count passed to `divRoundUp` is the flag `n` and is at
least 1; the columns are the flag `thumbnails-per-row` as given; and
`divRoundUp` returns a row count whenever that flag is not zero. -/
theorem layout_inputs (e : Extern) (f : Flags) (g : Generator) (a b : Int)
    (h : layoutCall e f g Sys.init = some (a, b)) :
    1 ≤ a ∧ a = f.n ∧ b = f.thumbnailsPerRow ∧
    (b ≠ 0 → ∃ c, divRoundUp a b = some c) := by
  unfold layoutCall at h
  by_cases hcap : f.n < 0 ∨ maxImages < f.n
  · simp [hcap] at h
  by_cases halloc : e.allocImages f.n = false
  · simp [hcap, halloc] at h
  by_cases hzero : f.n = 0
  · simp [hcap, halloc, hzero] at h
  rw [if_neg hcap, if_neg halloc, if_neg hzero] at h
  have hn : 0 < f.n := by omega
  rcases herr : (sample e f g Sys.init).err with _ | err
  · simp only [herr, Option.some.injEq, Prod.mk.injEq] at h
    obtain ⟨ha, hb⟩ := h
    obtain ⟨m, q, _, _, _, hlen, _, _, _, hm, _⟩ := sample_shape e f g Sys.init hn
    have hlen' : ((sample e f g Sys.init).images.length : Int) = f.n := by
      rw [hlen, hm herr]; omega
    rw [hlen'] at ha
    subst ha hb
    exact ⟨by omega, rfl, rfl, fun hne => divRoundUp_of_ne _ _ hne⟩
  · simp [herr] at h

theorem layout_inputs_witness :
    layoutCall demoExtern flags3 demoVideo Sys.init = some (3, 3) ∧
    ((1 : Int) ≤ 3 ∧ (3 : Int) = flags3.n ∧ (3 : Int) = flags3.thumbnailsPerRow ∧
      ((3 : Int) ≠ 0 → ∃ c, divRoundUp 3 3 = some c)) :=
  ⟨by decide, layout_inputs demoExtern flags3 demoVideo 3 3 (by decide)⟩

/-- C11 as stated fails: with `-thumbnails-per-row 0` the run reaches the
layout call with columns 0, `divRoundUp` divides by zero and the run ends in
a panic; with `-thumbnails-per-row -1` it reaches the call with columns
`-1`. -/
theorem layout_inputs_unvalidated :
    layoutCall demoExtern { flags3 with thumbnailsPerRow := 0 } demoVideo Sys.init
      = some (3, 0) ∧
    divRoundUp 3 0 = none ∧
    (makeScreenList demoExtern { flags3 with thumbnailsPerRow := 0 } demoVideo Sys.init).1
      = .panic "integer divide by zero" ∧
    layoutCall demoExtern { flags3 with thumbnailsPerRow := -1 } demoVideo Sys.init
      = some (3, -1) ∧
    ¬ ∀ (f : Flags) (a b : Int),
        layoutCall demoExtern f demoVideo Sys.init = some (a, b) → 1 ≤ a ∧ 1 ≤ b := by
  refine ⟨by decide, by decide, by decide, by decide, ?_⟩
  intro hall
  have := hall { flags3 with thumbnailsPerRow := 0 } 3 0 (by decide)
  omega

/-- C12: for a source of `N ≥ 0` bytes the size text is the decimal rendering
of the truncating quotient `N / (1024 * 1024)` followed by `" Mb"` (`"0 Mb"`
below one MiB), and every argument list given to `convert` draws it as the
value of the `Size:` line. -/
theorem header_size_value (e : Extern) (f : Flags) (g : Generator) (N : Int)
    (hN : 0 ≤ N) (hstat : e.stat g.Filename = .ok N) :
    fileSize e g.Filename = some (toString (N / (1024 * 1024)) ++ " Mb") ∧
    (N < 1048576 → fileSize e g.Filename = some "0 Mb") ∧
    ∀ args ∈ (makeScreenList e f g Sys.init).2.converts,
      args[11]? = some "text 16,48 'Size:'" ∧
      args[25]? = some ("text 96,48 '" ++ (toString (N / (1024 * 1024)) ++ " Mb") ++ "'") := by
  have hq : (N.tdiv 1024).tdiv 1024 = N / (1024 * 1024) := by
    rw [Int.tdiv_eq_ediv hN (by decide),
      Int.tdiv_eq_ediv (Int.ediv_nonneg hN (by decide)) (by decide)]
    omega
  have hfs : fileSize e g.Filename = some (toString (N / (1024 * 1024)) ++ " Mb") := by
    rw [fileSize_of_stat e g.Filename N hstat, hq]
  refine ⟨hfs, ?_, ?_⟩
  · intro hlt
    rw [hfs, show N / (1024 * 1024) = 0 by omega]
    rfl
  · intro args hargs
    obtain ⟨_, _, numRows, size, _, hsize, rfl⟩ := converts_mem e f g args hargs
    rw [hfs] at hsize
    cases hsize
    exact ⟨buildArgs_head _ _ _ _ _ _ 11 _ rfl, buildArgs_head _ _ _ _ _ _ 25 _ rfl⟩

theorem header_size_value_witness :
    (0 : Int) ≤ 314572800 ∧ demoExtern.stat demoVideo.Filename = .ok 314572800 ∧
    fileSize demoExtern demoVideo.Filename = some "300 Mb" ∧
    (∀ args ∈ (makeScreenList demoExtern flags3 demoVideo Sys.init).2.converts,
      args[25]? = some "text 96,48 '300 Mb'") ∧
    (makeScreenList demoExtern flags3 demoVideo Sys.init).2.converts ≠ [] := by
  have h := header_size_value demoExtern flags3 demoVideo 314572800 (by decide) rfl
  refine ⟨by decide, rfl, h.1.trans (by decide), ?_, by decide⟩
  intro args hargs
  exact ((h.2.2 args hargs).2).trans (by decide)

/-- C13: in every argument list given to `convert` the header panel has size
`canvasWidth x 128`, `canvasWidth` being the width line 119 computes, which
is also the width of the grid panel and equals
`columns * 256 + (columns + 1) * 16` whenever that is below `2^63`; and the
panel holds six label/value pairs, Filename, Size, Duration, Resolution (as
`WxH`), Video, Audio in this order: the `k`-th label is drawn at
`(16, 2 * 16 + 16 k)` and the `k`-th value on the same line at `x = 16 + 80`,
the value column 80 px right of the label column. -/
theorem header_panel (e : Extern) (f : Flags) (g : Generator) (args : List String)
    (hargs : args ∈ (makeScreenList e f g Sys.init).2.converts) :
    args[0]? = some "(" ∧ args[1]? = some "-size" ∧
    (∃ W H : Int, args[2]? = some (fmtSize W 128) ∧ args[37]? = some (fmtSize W H) ∧
      W = canvasWidth f.thumbnailsPerRow ∧
      (0 < f.thumbnailsPerRow →
        f.thumbnailsPerRow * 256 + (f.thumbnailsPerRow + 1) * 16 < 2 ^ 63 →
        W = f.thumbnailsPerRow * 256 + (f.thumbnailsPerRow + 1) * 16)) ∧
    args[34]? = some ")" ∧
    ∃ size : String, fileSize e g.Filename = some size ∧
      ∀ k : Nat, k < 6 →
        args[8 + 2 * k]? = some "-draw" ∧
        args[9 + 2 * k]? = some (drawText 16 (2 * 16 + 16 * (k : Int))
          (["Filename:", "Size:", "Duration:", "Resolution:", "Video:", "Audio:"].getD k "")) ∧
        args[22 + 2 * k]? = some "-draw" ∧
        args[23 + 2 * k]? = some (drawText (16 + 80) (2 * 16 + 16 * (k : Int))
          ([g.Filename, size, ms2String g.Duration, fmtSize g.Width g.Height,
            g.VideoCodecLongName, g.AudioCodecLongName].getD k "")) := by
  obtain ⟨_, _, numRows, size, _, hsize, rfl⟩ := converts_mem e f g args hargs
  refine ⟨buildArgs_head _ _ _ _ _ _ 0 _ rfl, buildArgs_head _ _ _ _ _ _ 1 _ rfl,
    ⟨_, _, buildArgs_head _ _ _ _ _ _ 2 _ rfl, buildArgs_head _ _ _ _ _ _ 37 _ rfl, rfl,
      fun hc hw => canvasWidth_exact f.thumbnailsPerRow hc hw⟩,
    buildArgs_head _ _ _ _ _ _ 34 _ rfl, size, hsize, ?_⟩
  intro k hk
  interval_cases k
  all_goals
    exact ⟨buildArgs_head _ _ _ _ _ _ _ _ rfl, buildArgs_head _ _ _ _ _ _ _ _ rfl,
      buildArgs_head _ _ _ _ _ _ _ _ rfl, buildArgs_head _ _ _ _ _ _ _ _ rfl⟩

theorem header_panel_witness :
    ∃ args : List String,
      args ∈ (makeScreenList demoExtern flags3 demoVideo Sys.init).2.converts ∧
      args[2]? = some "832x128" ∧
      args[9 + 2 * 3]? = some "text 16,80 'Resolution:'" ∧
      args[23 + 2 * 3]? = some "text 96,80 '1920x1080'" := by
  have hmem : buildArgs flags3 demoVideo 144 1 "300 Mb"
      (sample demoExtern flags3 demoVideo Sys.init).images
      ∈ (makeScreenList demoExtern flags3 demoVideo Sys.init).2.converts := by decide
  obtain ⟨_, _, ⟨W, H, h2, _, hW, _⟩, _, size, hsize, hk⟩ :=
    header_panel demoExtern flags3 demoVideo _ hmem
  obtain ⟨_, h9, _, h23⟩ := hk 3 (by decide)
  subst hW
  exact ⟨_, hmem, h2.trans (by decide), h9.trans (by decide), h23.trans rfl⟩

/-- C14: every argument list given to `convert` is the header panel group
(35 arguments from `(` to `)`, sized `W x 128`), then the grid panel group
(from `(` and its `-size W x H` to `)`, with twelve arguments per thumbnail
in between), then exactly `-append`, `-quality`, the decimal rendering of
the quality flag and the output path. -/
theorem args_panels_and_tail (e : Extern) (f : Flags) (g : Generator)
    (args : List String) (hargs : args ∈ (makeScreenList e f g Sys.init).2.converts) :
    ∃ header grid : List String,
      args = header ++ grid ++ ["-append", "-quality", toString f.quality, f.output] ∧
      header.length = 35 ∧ header.head? = some "(" ∧ header[1]? = some "-size" ∧
      (∃ W H : Int, header[2]? = some (fmtSize W 128) ∧ grid[2]? = some (fmtSize W H)) ∧
      header.getLast? = some ")" ∧
      grid.length = 8 + 12 * f.n.toNat + 1 ∧ grid.head? = some "(" ∧
      grid[1]? = some "-size" ∧ grid.getLast? = some ")" ∧
      args.drop (args.length - 5)
        = [")", "-append", "-quality", toString f.quality, f.output] := by
  obtain ⟨hn, hlen, numRows, size, _, _, rfl⟩ := converts_mem e f g args hargs
  have hlen' : (sample e f g Sys.init).images.length = f.n.toNat := by omega
  have hsplit : buildArgs f g (e.floatHeight g.Height g.Width) numRows size
      (sample e f g Sys.init).images
      = (headArgs g (canvasWidth f.thumbnailsPerRow)
            (canvasHeight numRows (e.floatHeight g.Height g.Width)) size).take 35
        ++ ((headArgs g (canvasWidth f.thumbnailsPerRow)
            (canvasHeight numRows (e.floatHeight g.Height g.Width)) size).drop 35
          ++ gridArgs f.thumbnailsPerRow (e.floatHeight g.Height g.Width) 0 0
            (sample e f g Sys.init).images ++ [")"])
        ++ ["-append", "-quality", toString f.quality, f.output] := by
    unfold buildArgs
    conv_lhs => rw [← List.take_append_drop 35 (headArgs g (canvasWidth f.thumbnailsPerRow)
      (canvasHeight numRows (e.floatHeight g.Height g.Width)) size)]
    simp only [List.append_assoc, List.cons_append, List.nil_append, List.singleton_append]
  refine ⟨_, _, hsplit, rfl, rfl, rfl, ⟨_, _, rfl, rfl⟩, rfl, ?_, rfl, rfl, ?_, ?_⟩
  · simp only [List.length_append, gridArgs_length, hlen']
    rfl
  · rw [List.getLast?_append]
    rfl
  · unfold buildArgs
    have hl : ∀ l : List String,
        (l ++ [")", "-append", "-quality", toString f.quality, f.output]).length - 5
          = l.length := by
      intro l
      simp
    rw [hl]
    exact List.drop_left _ _

theorem args_panels_and_tail_witness :
    ∃ args : List String,
      args ∈ (makeScreenList demoExtern flags3 demoVideo Sys.init).2.converts ∧
      args.drop (args.length - 5) = [")", "-append", "-quality", "85", "output.jpg"] := by
  have hmem : buildArgs flags3 demoVideo 144 1 "300 Mb"
      (sample demoExtern flags3 demoVideo Sys.init).images
      ∈ (makeScreenList demoExtern flags3 demoVideo Sys.init).2.converts := by decide
  obtain ⟨_, _, _, _, _, _, _, _, _, _, _, _, htail⟩ :=
    args_panels_and_tail demoExtern flags3 demoVideo _ hmem
  exact ⟨_, hmem, htail.trans (by decide)⟩

/-! ## Claim on the command line -/

/-- C16: when the number of positional arguments is not one, `main` writes the
two usage lines and the flag defaults and returns with exit status 0; no
video is opened, no frame requested, no temp file created and `convert` is
not run. -/
theorem main_usage (newGenerator : String → Except String Generator) (defaults : String)
    (e : Extern) (f : Flags) (args : List String) (hargs : args.length ≠ 1) :
    (main newGenerator defaults e f args).exitCode = 0 ∧
    (main newGenerator defaults e f args).stdout
      = ["Usage: screengen [options] videofile", "Options:"] ∧
    (main newGenerator defaults e f args).stderr = [defaults] ∧
    (main newGenerator defaults e f args).opened = [] ∧
    (main newGenerator defaults e f args).sys.requests = [] ∧
    (main newGenerator defaults e f args).sys.disk = [] ∧
    (main newGenerator defaults e f args).sys.converts = [] := by
  unfold main
  rw [if_pos hargs]
  exact ⟨rfl, rfl, rfl, rfl, rfl, rfl, rfl⟩

theorem main_usage_witness :
    ([] : List String).length ≠ 1 ∧ ["a.mkv", "b.mkv"].length ≠ 1 ∧
    (main (fun _ => .ok demoVideo) "" demoExtern flags3 []).exitCode = 0 ∧
    (main (fun _ => .ok demoVideo) "" demoExtern flags3 ["a.mkv", "b.mkv"]).opened = [] ∧
    (main (fun _ => .ok demoVideo) "" demoExtern flags3 ["a.mkv"]).opened = ["a.mkv"] :=
  ⟨by decide, by decide,
    (main_usage (fun _ => .ok demoVideo) "" demoExtern flags3 [] (by decide)).1,
    (main_usage (fun _ => .ok demoVideo) "" demoExtern flags3 ["a.mkv", "b.mkv"]
      (by decide)).2.2.2.1,
    by decide⟩

/-! ## Claims on the placement of the thumbnails -/

/-- The `-geometry` argument of the `i`-th thumbnail in any argument list
given to `convert`, for at least one column. -/
theorem geometry_of_mem (e : Extern) (f : Flags) (g : Generator) (args : List String)
    (hargs : args ∈ (makeScreenList e f g Sys.init).2.converts)
    (hc : 0 < f.thumbnailsPerRow) (i : Nat) (hi : (i : Int) < f.n) :
    args[43 + 12 * i + 2]? = some
      (fmtGeometry ((i : Int) % f.thumbnailsPerRow * (256 + 16) + 16)
        ((i : Int) / f.thumbnailsPerRow * (e.floatHeight g.Height g.Width + 16) + 16)) := by
  obtain ⟨hn, hlen, numRows, size, _, _, rfl⟩ := converts_mem e f g args hargs
  have hlt : i < (sample e f g Sys.init).images.length := by omega
  apply buildArgs_thumb _ _ _ _ _ _ i 2 _ _ (List.getElem?_eq_getElem hlt)
  rw [cellFrom_zero f.thumbnailsPerRow hc i]
  rfl

/-- The `-size` argument of the grid panel in any argument list given to
`convert`, for at least one column. -/
theorem grid_size_of_mem (e : Extern) (f : Flags) (g : Generator) (args : List String)
    (hargs : args ∈ (makeScreenList e f g Sys.init).2.converts)
    (hc : 0 < f.thumbnailsPerRow) :
    ∃ rows : Int, divRoundUp f.n f.thumbnailsPerRow = some rows ∧
      f.n ≤ rows * f.thumbnailsPerRow ∧
      args[37]? = some (fmtSize (canvasWidth f.thumbnailsPerRow)
        (rows * e.floatHeight g.Height g.Width + (rows + 1) * 16)) := by
  obtain ⟨hn, _, numRows, size, hrows, _, rfl⟩ := converts_mem e f g args hargs
  obtain ⟨c, hc1, _, _, hle, _⟩ := divRoundUp_pos f.n f.thumbnailsPerRow hn hc
  rw [hrows] at hc1
  cases hc1
  exact ⟨numRows, hrows, hle, buildArgs_head _ _ _ _ _ _ 37 _ rfl⟩

/-- C17, as the code has it: with at least one column, the exact canvas
width `columns * 256 + (columns + 1) * 16` below `2^63` and a thumbnail
height `≥ 0`, in every argument list given to `convert` the `i`-th thumbnail
lies inside the grid canvas with a full margin of 16: its emitted position
`(X, Y)` and the emitted canvas size `W x H` (rows from `divRoundUp`)
satisfy `X ≥ 16`, `Y ≥ 16`, `X + 256 + 16 ≤ W` and
`Y + thumbHeight + 16 ≤ H`. -/
theorem thumbnails_inside_canvas (e : Extern) (f : Flags) (g : Generator)
    (args : List String) (hargs : args ∈ (makeScreenList e f g Sys.init).2.converts)
    (hc : 0 < f.thumbnailsPerRow)
    (hw : f.thumbnailsPerRow * 256 + (f.thumbnailsPerRow + 1) * 16 < 2 ^ 63)
    (hth : 0 ≤ e.floatHeight g.Height g.Width)
    (i : Nat) (hi : (i : Int) < f.n) :
    ∃ X Y W H rows : Int,
      divRoundUp f.n f.thumbnailsPerRow = some rows ∧
      args[37]? = some (fmtSize W H) ∧
      args[43 + 12 * i + 2]? = some (fmtGeometry X Y) ∧
      W = f.thumbnailsPerRow * 256 + (f.thumbnailsPerRow + 1) * 16 ∧
      H = rows * e.floatHeight g.Height g.Width + (rows + 1) * 16 ∧
      X = (i : Int) % f.thumbnailsPerRow * (256 + 16) + 16 ∧
      Y = (i : Int) / f.thumbnailsPerRow * (e.floatHeight g.Height g.Width + 16) + 16 ∧
      16 ≤ X ∧ 16 ≤ Y ∧ X + 256 + 16 ≤ W ∧
      Y + e.floatHeight g.Height g.Width + 16 ≤ H := by
  obtain ⟨rows, hrows, hle, hsize⟩ := grid_size_of_mem e f g args hargs hc
  rw [canvasWidth_exact f.thumbnailsPerRow hc hw] at hsize
  have hgeo := geometry_of_mem e f g args hargs hc i hi
  have hi0 : (0 : Int) ≤ i := by exact_mod_cast Nat.zero_le i
  have hc0 : 0 ≤ (i : Int) % f.thumbnailsPerRow := Int.emod_nonneg _ (by omega)
  have hc1 : (i : Int) % f.thumbnailsPerRow < f.thumbnailsPerRow := Int.emod_lt_of_pos _ hc
  have hr0 : 0 ≤ (i : Int) / f.thumbnailsPerRow := Int.ediv_nonneg hi0 hc.le
  have hr1 : (i : Int) / f.thumbnailsPerRow < rows := by
    have h1 : (i : Int) / f.thumbnailsPerRow * f.thumbnailsPerRow ≤ i :=
      Int.ediv_mul_le _ (by omega)
    by_contra hcon
    have h2 : rows * f.thumbnailsPerRow ≤ (i : Int) / f.thumbnailsPerRow * f.thumbnailsPerRow :=
      mul_le_mul_of_nonneg_right (by omega) hc.le
    omega
  refine ⟨_, _, _, _, rows, hrows, hsize, hgeo, rfl, rfl, rfl, rfl, ?_, ?_, ?_, ?_⟩
  · nlinarith
  · nlinarith
  · nlinarith
  · have h3 : ((i : Int) / f.thumbnailsPerRow + 1) * (e.floatHeight g.Height g.Width + 16)
        ≤ rows * (e.floatHeight g.Height g.Width + 16) :=
      mul_le_mul_of_nonneg_right (by omega) (by omega)
    nlinarith

theorem thumbnails_inside_canvas_witness :
    ∃ (args : List String) (X Y W H : Int),
      args ∈ (makeScreenList demoExtern { defaultFlags with n := 5, thumbnailsPerRow := 2 }
        demoVideo Sys.init).2.converts ∧
      args[37]? = some (fmtSize W H) ∧ args[43 + 12 * 4 + 2]? = some (fmtGeometry X Y) ∧
      W = 560 ∧ H = 496 ∧ 16 ≤ X ∧ 16 ≤ Y ∧ X + 256 + 16 ≤ W ∧ Y + 144 + 16 ≤ H := by
  have hmem : buildArgs { defaultFlags with n := 5, thumbnailsPerRow := 2 } demoVideo 144 3
      "300 Mb"
      (sample demoExtern { defaultFlags with n := 5, thumbnailsPerRow := 2 } demoVideo
        Sys.init).images
      ∈ (makeScreenList demoExtern { defaultFlags with n := 5, thumbnailsPerRow := 2 }
        demoVideo Sys.init).2.converts := by decide
  obtain ⟨X, Y, W, H, rows, hrows, h37, hgeo, hW, hH, _, _, h1, h2, h3, h4⟩ :=
    thumbnails_inside_canvas demoExtern { defaultFlags with n := 5, thumbnailsPerRow := 2 }
      demoVideo _ hmem (by decide) (by decide) (by decide) 4 (by decide)
  have hr : rows = 3 := by
    have : divRoundUp 5 2 = some 3 := by decide
    have h' : divRoundUp 5 2 = some rows := hrows
    rw [this] at h'
    exact (Option.some.inj h').symm
  subst hr
  exact ⟨_, X, Y, W, H, hmem, h37, hgeo, hW.trans (by decide), hH.trans (by decide),
    h1, h2, h3, h4⟩

/-- C17 as stated fails: with `-thumbnails-per-row 36028797018963968` (and
`-n 3`) the run completes, the first thumbnail is placed at `+16+16` and
the canvas it is placed on has the wrapped width `-8646911284551352304`, so
`X + 256 + 16 ≤ canvasWidth` does not hold. -/
theorem thumbnails_outside_wrapped_canvas :
    (1 : Int) ≤ 3 ∧ (1 : Int) ≤ 36028797018963968 ∧
    (0 : Int) ≤ demoExtern.floatHeight demoVideo.Height demoVideo.Width ∧
    (makeScreenList demoExtern { flags3 with thumbnailsPerRow := 36028797018963968 }
      demoVideo Sys.init).2.converts.map (fun args => (args[37]?, args[43 + 12 * 0 + 2]?))
      = [(some (fmtSize (-8646911284551352304) 176), some (fmtGeometry 16 16))] ∧
    ¬ ((16 : Int) + 256 + 16 ≤ -8646911284551352304) := by
  refine ⟨by decide, by decide, by decide, by decide, by decide⟩

/-- C18: with at least one column and a thumbnail height `≥ 1`, in every
argument list given to `convert` two different thumbnails `i ≠ j` do not
overlap: their emitted positions are at least `256 + 16` apart in `x` or at
least `thumbHeight + 16` apart in `y`, so the rectangles
`[X, X + 256) x [Y, Y + thumbHeight)` share no point. -/
theorem thumbnails_disjoint (e : Extern) (f : Flags) (g : Generator)
    (args : List String) (hargs : args ∈ (makeScreenList e f g Sys.init).2.converts)
    (hc : 0 < f.thumbnailsPerRow) (hth : 1 ≤ e.floatHeight g.Height g.Width)
    (i j : Nat) (hi : (i : Int) < f.n) (hj : (j : Int) < f.n) (hij : i ≠ j) :
    ∃ Xi Yi Xj Yj : Int,
      args[43 + 12 * i + 2]? = some (fmtGeometry Xi Yi) ∧
      args[43 + 12 * j + 2]? = some (fmtGeometry Xj Yj) ∧
      Xi = (i : Int) % f.thumbnailsPerRow * (256 + 16) + 16 ∧
      Yi = (i : Int) / f.thumbnailsPerRow * (e.floatHeight g.Height g.Width + 16) + 16 ∧
      Xj = (j : Int) % f.thumbnailsPerRow * (256 + 16) + 16 ∧
      Yj = (j : Int) / f.thumbnailsPerRow * (e.floatHeight g.Height g.Width + 16) + 16 ∧
      (Xi + 256 + 16 ≤ Xj ∨ Xj + 256 + 16 ≤ Xi ∨
        Yi + e.floatHeight g.Height g.Width + 16 ≤ Yj ∨
        Yj + e.floatHeight g.Height g.Width + 16 ≤ Yi) ∧
      ∀ px py : Int,
        ¬ ((Xi ≤ px ∧ px < Xi + 256 ∧ Yi ≤ py ∧ py < Yi + e.floatHeight g.Height g.Width) ∧
           (Xj ≤ px ∧ px < Xj + 256 ∧ Yj ≤ py ∧ py < Yj + e.floatHeight g.Height g.Width)) := by
  have hgi := geometry_of_mem e f g args hargs hc i hi
  have hgj := geometry_of_mem e f g args hargs hc j hj
  have hdi : f.thumbnailsPerRow * ((i : Int) / f.thumbnailsPerRow)
      + (i : Int) % f.thumbnailsPerRow = i := Int.ediv_add_emod _ _
  have hdj : f.thumbnailsPerRow * ((j : Int) / f.thumbnailsPerRow)
      + (j : Int) % f.thumbnailsPerRow = j := Int.ediv_add_emod _ _
  have hne : (i : Int) ≠ j := by exact_mod_cast hij
  have hsep : ((i : Int) % f.thumbnailsPerRow * (256 + 16) + 16) + 256 + 16
        ≤ (j : Int) % f.thumbnailsPerRow * (256 + 16) + 16 ∨
      ((j : Int) % f.thumbnailsPerRow * (256 + 16) + 16) + 256 + 16
        ≤ (i : Int) % f.thumbnailsPerRow * (256 + 16) + 16 ∨
      ((i : Int) / f.thumbnailsPerRow * (e.floatHeight g.Height g.Width + 16) + 16)
          + e.floatHeight g.Height g.Width + 16
        ≤ (j : Int) / f.thumbnailsPerRow * (e.floatHeight g.Height g.Width + 16) + 16 ∨
      ((j : Int) / f.thumbnailsPerRow * (e.floatHeight g.Height g.Width + 16) + 16)
          + e.floatHeight g.Height g.Width + 16
        ≤ (i : Int) / f.thumbnailsPerRow * (e.floatHeight g.Height g.Width + 16) + 16 := by
    rcases lt_trichotomy ((i : Int) % f.thumbnailsPerRow) ((j : Int) % f.thumbnailsPerRow)
      with h | h | h
    · left; omega
    · rcases lt_trichotomy ((i : Int) / f.thumbnailsPerRow) ((j : Int) / f.thumbnailsPerRow)
        with h' | h' | h'
      · right; right; left
        have := mul_le_mul_of_nonneg_right (show (i : Int) / f.thumbnailsPerRow + 1
          ≤ (j : Int) / f.thumbnailsPerRow by omega)
          (show 0 ≤ e.floatHeight g.Height g.Width + 16 by omega)
        nlinarith
      · exfalso
        apply hne
        rw [← hdi, ← hdj, h, h']
      · right; right; right
        have := mul_le_mul_of_nonneg_right (show (j : Int) / f.thumbnailsPerRow + 1
          ≤ (i : Int) / f.thumbnailsPerRow by omega)
          (show 0 ≤ e.floatHeight g.Height g.Width + 16 by omega)
        nlinarith
    · right; left; omega
  refine ⟨_, _, _, _, hgi, hgj, rfl, rfl, rfl, rfl, hsep, ?_⟩
  intro px py hboth
  rcases hsep with h | h | h | h <;> omega

theorem thumbnails_disjoint_witness :
    ∃ (args : List String) (Xi Yi Xj Yj : Int),
      args ∈ (makeScreenList demoExtern { defaultFlags with n := 5, thumbnailsPerRow := 2 }
        demoVideo Sys.init).2.converts ∧
      args[43 + 12 * 1 + 2]? = some (fmtGeometry Xi Yi) ∧
      args[43 + 12 * 3 + 2]? = some (fmtGeometry Xj Yj) ∧
      (Xi + 256 + 16 ≤ Xj ∨ Xj + 256 + 16 ≤ Xi ∨ Yi + 144 + 16 ≤ Yj ∨ Yj + 144 + 16 ≤ Yi) := by
  have hmem : buildArgs { defaultFlags with n := 5, thumbnailsPerRow := 2 } demoVideo 144 3
      "300 Mb"
      (sample demoExtern { defaultFlags with n := 5, thumbnailsPerRow := 2 } demoVideo
        Sys.init).images
      ∈ (makeScreenList demoExtern { defaultFlags with n := 5, thumbnailsPerRow := 2 }
        demoVideo Sys.init).2.converts := by decide
  obtain ⟨Xi, Yi, Xj, Yj, h1, h2, _, _, _, _, h3, _⟩ :=
    thumbnails_disjoint demoExtern { defaultFlags with n := 5, thumbnailsPerRow := 2 }
      demoVideo _ hmem (by decide) (by decide) 1 3 (by decide) (by decide) (by decide)
  exact ⟨_, Xi, Yi, Xj, Yj, hmem, h1, h2, h3⟩

/-! ## Claim on reproducibility -/

theorem thumbArgs_agree (thHeight x y : Int) (a b : Image) (htime : a.time = b.time)
    (j : Nat) (hj : j ≠ 0) :
    (thumbArgs thHeight x y a)[j]? = (thumbArgs thHeight x y b)[j]? := by
  cases j with
  | zero => exact absurd rfl hj
  | succ j => simp only [thumbArgs, htime, List.getElem?_cons_succ]

/-- Grid arguments built from images with the same times agree everywhere
except at the positions `12 i` of the file names. -/
theorem gridArgs_agree (tpr thHeight : Int) :
    ∀ (images1 images2 : List Image) (x y : Int),
      images1.map Image.time = images2.map Image.time →
      ∀ j : Nat, (∀ i : Nat, i < images1.length → j ≠ 12 * i) →
        (gridArgs tpr thHeight x y images1)[j]? = (gridArgs tpr thHeight x y images2)[j]? := by
  intro images1
  induction images1 with
  | nil =>
    intro images2 x y h j _
    cases images2 with
    | nil => rfl
    | cons b r2 => simp at h
  | cons a r1 ih =>
    intro images2 x y h j hj
    cases images2 with
    | nil => simp at h
    | cons b r2 =>
      simp only [List.map_cons, List.cons.injEq] at h
      obtain ⟨htime, hrest⟩ := h
      rw [gridArgs_cons, gridArgs_cons]
      by_cases hlt : j < 12
      · rw [List.getElem?_append_left (by rw [thumbArgs_length]; exact hlt),
          List.getElem?_append_left (by rw [thumbArgs_length]; exact hlt)]
        apply thumbArgs_agree _ _ _ _ _ htime
        intro h0
        exact hj 0 (by simp) (by omega)
      · rw [List.getElem?_append_right (by rw [thumbArgs_length]; omega),
          List.getElem?_append_right (by rw [thumbArgs_length]; omega),
          thumbArgs_length, thumbArgs_length]
        apply ih r2 _ _ hrest
        intro i hi h12
        exact hj (i + 1) (by simp; omega) (by omega)

/-- Argument lists built from images with the same times have the same
length and agree everywhere except at the positions `43 + 12 i` of the file
names. -/
theorem buildArgs_agree (f : Flags) (g : Generator) (thHeight numRows : Int)
    (size : String) (images1 images2 : List Image)
    (h : images1.map Image.time = images2.map Image.time) :
    (buildArgs f g thHeight numRows size images1).length
      = (buildArgs f g thHeight numRows size images2).length ∧
    ∀ j : Nat, (∀ i : Nat, i < images1.length → j ≠ 43 + 12 * i) →
      (buildArgs f g thHeight numRows size images1)[j]?
        = (buildArgs f g thHeight numRows size images2)[j]? := by
  have hlen : images1.length = images2.length := by
    have := congrArg List.length h
    simpa using this
  refine ⟨?_, ?_⟩
  · simp only [buildArgs, List.length_append, gridArgs_length, hlen]
  · intro j hj
    unfold buildArgs
    simp only [List.getElem?_append, List.length_append, gridArgs_length, headArgs_length,
      hlen]
    by_cases h1 : j < 43 + 12 * images2.length
    · rw [if_pos h1, if_pos h1]
      by_cases h2 : j < 43
      · rw [if_pos h2, if_pos h2]
      · rw [if_neg h2, if_neg h2]
        apply gridArgs_agree _ _ _ _ _ _ h
        intro i hi h12
        exact hj i hi (by omega)
    · rw [if_neg h1, if_neg h1]

/-- C15, as the code has it: two runs on the same flags, the same video and
the same answer of `os.Stat` hand `convert` argument lists of the same
length that agree at every position except the positions `43 + 12 i` of the
`n` temp file names, which `ioutil.TempFile` chooses in each run. -/
theorem args_reproducible (e1 e2 : Extern) (f : Flags) (g : Generator)
    (hheight : e1.floatHeight g.Height g.Width = e2.floatHeight g.Height g.Width)
    (hstat : e1.stat g.Filename = e2.stat g.Filename)
    (args1 args2 : List String)
    (h1 : args1 ∈ (makeScreenList e1 f g Sys.init).2.converts)
    (h2 : args2 ∈ (makeScreenList e2 f g Sys.init).2.converts) :
    args1.length = args2.length ∧
    (∀ j : Nat, (∀ i : Nat, (i : Int) < f.n → j ≠ 43 + 12 * i) → args1[j]? = args2[j]?) ∧
    (∀ i : Nat, (i : Int) < f.n →
      ∃ img1 img2 : Image,
        (sample e1 f g Sys.init).images[i]? = some img1 ∧
        (sample e2 f g Sys.init).images[i]? = some img2 ∧
        args1[43 + 12 * i]? = some img1.filename ∧
        args2[43 + 12 * i]? = some img2.filename) := by
  obtain ⟨hn, hlen1, rows1, size1, hrows1, hsize1, rfl⟩ := converts_mem e1 f g args1 h1
  obtain ⟨_, hlen2, rows2, size2, hrows2, hsize2, rfl⟩ := converts_mem e2 f g args2 h2
  have hrows : rows1 = rows2 := by
    rw [hrows1] at hrows2
    exact Option.some.inj hrows2
  have hsize : size1 = size2 := by
    have : fileSize e1 g.Filename = fileSize e2 g.Filename := by
      unfold fileSize
      rw [hstat]
    rw [hsize1, hsize2] at this
    exact Option.some.inj this
  subst hrows hsize
  have htimes : (sample e1 f g Sys.init).images.map Image.time
      = (sample e2 f g Sys.init).images.map Image.time := by
    obtain ⟨m1, _, _, _, _, hm1, ht1, _, _, _, _⟩ := sample_shape e1 f g Sys.init hn
    obtain ⟨m2, _, _, _, _, hm2, ht2, _, _, _, _⟩ := sample_shape e2 f g Sys.init hn
    have : m1 = m2 := by omega
    rw [ht1, ht2, this]
  rw [← hheight]
  obtain ⟨hl, hagree⟩ := buildArgs_agree f g (e1.floatHeight g.Height g.Width) rows1 size1
    _ _ htimes
  refine ⟨hl, ?_, ?_⟩
  · intro j hj
    apply hagree j
    intro i hi
    exact hj i (by omega)
  · intro i hi
    have hlt1 : i < (sample e1 f g Sys.init).images.length := by omega
    have hlt2 : i < (sample e2 f g Sys.init).images.length := by omega
    exact ⟨_, _, List.getElem?_eq_getElem hlt1, List.getElem?_eq_getElem hlt2,
      buildArgs_thumb _ _ _ _ _ _ i 0 _ _ (List.getElem?_eq_getElem hlt1) rfl,
      buildArgs_thumb _ _ _ _ _ _ i 0 _ _ (List.getElem?_eq_getElem hlt2) rfl⟩

theorem args_reproducible_witness :
    ∃ args1 args2 : List String,
      args1 ∈ (makeScreenList demoExtern flags3 demoVideo Sys.init).2.converts ∧
      args2 ∈ (makeScreenList secondRunExtern flags3 demoVideo Sys.init).2.converts ∧
      args1.length = args2.length ∧ args1[43 + 12 * 1 + 7]? = args2[43 + 12 * 1 + 7]? := by
  have hmem1 : buildArgs flags3 demoVideo 144 1 "300 Mb"
      (sample demoExtern flags3 demoVideo Sys.init).images
      ∈ (makeScreenList demoExtern flags3 demoVideo Sys.init).2.converts := by decide
  have hmem2 : buildArgs flags3 demoVideo 144 1 "300 Mb"
      (sample secondRunExtern flags3 demoVideo Sys.init).images
      ∈ (makeScreenList secondRunExtern flags3 demoVideo Sys.init).2.converts := by decide
  obtain ⟨hl, hagree, _⟩ :=
    args_reproducible demoExtern secondRunExtern flags3 demoVideo rfl rfl _ _ hmem1 hmem2
  refine ⟨_, _, hmem1, hmem2, hl, hagree _ ?_⟩
  intro i _
  omega

/-- C15 as stated fails: two runs on the same flags, video, file size and
collaborator answers, in which the temp directory hands out different names,
give `convert` different argument lists (they differ at position 43, the
first temp file name). -/
theorem args_differ_between_runs :
    secondRunExtern.floatHeight = demoExtern.floatHeight ∧
    secondRunExtern.stat demoVideo.Filename = demoExtern.stat demoVideo.Filename ∧
    (makeScreenList demoExtern flags3 demoVideo Sys.init).1 = .ok ∧
    (makeScreenList secondRunExtern flags3 demoVideo Sys.init).1 = .ok ∧
    (makeScreenList demoExtern flags3 demoVideo Sys.init).2.converts
      ≠ (makeScreenList secondRunExtern flags3 demoVideo Sys.init).2.converts ∧
    ((makeScreenList demoExtern flags3 demoVideo Sys.init).2.converts.map
        (fun args => args[43]?)) = [some "/tmp/screengen0"] ∧
    ((makeScreenList secondRunExtern flags3 demoVideo Sys.init).2.converts.map
        (fun args => args[43]?)) = [some "/tmp/screengen90"] := by
  refine ⟨rfl, rfl, by decide, by decide, by decide, by decide, by decide⟩

/-! ## The clock label read back -/

theorem ms2String_clockFields (ms : Int) :
    ms2String ms = fmt02 (clockFields ms).1 ++ ":" ++ fmt02 (clockFields ms).2.1 ++ ":"
      ++ fmt02 (clockFields ms).2.2 := rfl

theorem clockFields_eq (ms : Int) (h : 0 ≤ ms) :
    clockFields ms = (ms / 1000 / 3600, ms / 1000 % 3600 / 60, ms / 1000 % 60) := by
  have hs : 0 ≤ ms / 1000 := Int.ediv_nonneg h (by decide)
  have h1 : ms.tdiv 1000 = ms / 1000 := Int.tdiv_eq_ediv h (by decide)
  have h2 : ((ms / 1000).tdiv 60).tdiv 60 = ms / 1000 / 3600 := by
    rw [Int.tdiv_eq_ediv hs (by decide),
      Int.tdiv_eq_ediv (Int.ediv_nonneg hs (by decide)) (by decide)]
    omega
  have h3 : ms / 1000 - ms / 1000 / 3600 * 60 * 60 = ms / 1000 % 3600 := by omega
  have h4 : (ms / 1000 % 3600).tdiv 60 = ms / 1000 % 3600 / 60 :=
    Int.tdiv_eq_ediv (Int.emod_nonneg _ (by decide)) (by decide)
  have h5 : ms / 1000 % 3600 - ms / 1000 % 3600 / 60 * 60 = ms / 1000 % 60 := by omega
  unfold clockFields
  simp only [h1, h2, h3, h4, h5]

theorem digitChar_value : ∀ k < 10, (Nat.digitChar k).toNat - 48 = k := by decide

theorem digitChar_lt : ∀ k < 10, ∀ l < 10, k < l → Nat.digitChar k < Nat.digitChar l := by
  decide

theorem toDigitsCore_decode (fuel : Nat) :
    ∀ (n : Nat) (ds : List Char), n < fuel →
      (Nat.toDigitsCore 10 fuel n ds).foldl (fun acc c => acc * 10 + (c.toNat - 48)) 0
        = ds.foldl (fun acc c => acc * 10 + (c.toNat - 48)) n := by
  induction fuel with
  | zero => intro n ds h; omega
  | succ fuel ih =>
    intro n ds h
    rw [Nat.toDigitsCore]
    have hd : (Nat.digitChar (n % 10)).toNat - 48 = n % 10 :=
      digitChar_value (n % 10) (Nat.mod_lt n (by decide))
    split
    · rename_i h0
      simp only [List.foldl_cons, hd]
      congr 1
      omega
    · rename_i h0
      rw [ih (n / 10) _ (by omega)]
      simp only [List.foldl_cons, hd]
      congr 1
      omega

theorem decodeDec_repr (n : Nat) : decodeDec (Nat.repr n).data = n := by
  unfold decodeDec Nat.repr Nat.toDigits
  show List.foldl _ 0 (Nat.toDigitsCore 10 (n + 1) n []) = n
  rw [toDigitsCore_decode (n + 1) n [] (by omega)]
  rfl

theorem fmt02_two_digits : ∀ n : Nat, n < 100 →
    (fmt02 (n : Int)).data = [Nat.digitChar (n / 10), Nat.digitChar (n % 10)] := by
  intro n hn
  interval_cases n <;> rfl

theorem decodeDec_fmt02 (n : Nat) : decodeDec (fmt02 (n : Int)).data = n := by
  have hs : toString (n : Int) = Nat.repr n := rfl
  unfold fmt02
  rw [hs]
  split
  · show decodeDec ('0' :: (Nat.repr n).data) = n
    have := decodeDec_repr n
    unfold decodeDec at this ⊢
    simpa using this
  · exact decodeDec_repr n

theorem fmt02_inj (x y : Int) (hx : 0 ≤ x) (hy : 0 ≤ y) (h : fmt02 x = fmt02 y) : x = y := by
  obtain ⟨n, rfl⟩ := Int.eq_ofNat_of_zero_le hx
  obtain ⟨k, rfl⟩ := Int.eq_ofNat_of_zero_le hy
  have := congrArg (fun s => decodeDec s.data) h
  simp only [decodeDec_fmt02] at this
  rw [this]

theorem fmt02_length_two (x : Int) (hx : 0 ≤ x) (hlt : x < 100) :
    (fmt02 x).data.length = 2 := by
  obtain ⟨n, rfl⟩ := Int.eq_ofNat_of_zero_le hx
  rw [fmt02_two_digits n (by omega)]
  rfl

theorem label_data (h m s : Int) :
    (fmt02 h ++ ":" ++ fmt02 m ++ ":" ++ fmt02 s).data
      = (fmt02 h).data ++ ((':' :: (fmt02 m).data) ++ (':' :: (fmt02 s).data)) := by
  simp only [String.data_append]
  simp

/-- Two labels with minutes and seconds below 100 are equal only if their
fields are. -/
theorem label_inj (h m s h' m' s' : Int) (hh : 0 ≤ h) (hh' : 0 ≤ h')
    (hm : 0 ≤ m ∧ m < 100) (hm' : 0 ≤ m' ∧ m' < 100)
    (hs : 0 ≤ s ∧ s < 100) (hs' : 0 ≤ s' ∧ s' < 100)
    (heq : fmt02 h ++ ":" ++ fmt02 m ++ ":" ++ fmt02 s
      = fmt02 h' ++ ":" ++ fmt02 m' ++ ":" ++ fmt02 s') :
    h = h' ∧ m = m' ∧ s = s' := by
  have hd := congrArg String.data heq
  rw [label_data, label_data] at hd
  have hlen : ((':' :: (fmt02 m).data) ++ (':' :: (fmt02 s).data)).length
      = ((':' :: (fmt02 m').data) ++ (':' :: (fmt02 s').data)).length := by
    simp [fmt02_length_two m hm.1 hm.2, fmt02_length_two m' hm'.1 hm'.2,
      fmt02_length_two s hs.1 hs.2, fmt02_length_two s' hs'.1 hs'.2]
  obtain ⟨h1, h2⟩ := List.append_inj' hd hlen
  have hlen2 : (':' :: (fmt02 m).data).length = (':' :: (fmt02 m').data).length := by
    simp [fmt02_length_two m hm.1 hm.2, fmt02_length_two m' hm'.1 hm'.2]
  obtain ⟨h3, h4⟩ := List.append_inj h2 hlen2
  simp only [List.cons.injEq, true_and] at h3 h4
  refine ⟨fmt02_inj h h' hh hh' ?_, fmt02_inj m m' hm.1 hm'.1 ?_, fmt02_inj s s' hs.1 hs'.1 ?_⟩
  · exact String.ext h1
  · exact String.ext h3
  · exact String.ext h4

theorem two_digits_lt (x y : Nat) (hxy : x < y) (hy : y < 100) (t1 t2 : List Char) :
    (Nat.digitChar (x / 10) :: Nat.digitChar (x % 10) :: t1)
      < (Nat.digitChar (y / 10) :: Nat.digitChar (y % 10) :: t2) := by
  rcases Nat.lt_or_ge (x / 10) (y / 10) with h | h
  · exact List.Lex.rel (digitChar_lt _ (by omega) _ (by omega) h)
  · have he : x / 10 = y / 10 := by omega
    have hlt : x % 10 < y % 10 := by omega
    rw [he]
    exact List.Lex.cons
      (List.Lex.rel (digitChar_lt _ (Nat.mod_lt _ (by decide)) _ (Nat.mod_lt _ (by decide)) hlt))

theorem append_lt_append_left (p t1 t2 : List Char) (h : t1 < t2) : p ++ t1 < p ++ t2 := by
  induction p with
  | nil => exact h
  | cons c p ih => exact List.Lex.cons ih

/-- For fields below 100, a lexicographically smaller field triple gives a
smaller label in the order of strings. -/
theorem label_lt (h m s h' m' s' : Nat) (hh' : h' < 100) (hm' : m' < 100) (hs' : s' < 100)
    (hlex : h < h' ∨ (h = h' ∧ (m < m' ∨ (m = m' ∧ s < s')))) :
    fmt02 (h : Int) ++ ":" ++ fmt02 (m : Int) ++ ":" ++ fmt02 (s : Int)
      < fmt02 (h' : Int) ++ ":" ++ fmt02 (m' : Int) ++ ":" ++ fmt02 (s' : Int) := by
  rw [String.lt_iff_toList_lt]
  show (fmt02 (h : Int) ++ ":" ++ fmt02 (m : Int) ++ ":" ++ fmt02 (s : Int)).data
    < (fmt02 (h' : Int) ++ ":" ++ fmt02 (m' : Int) ++ ":" ++ fmt02 (s' : Int)).data
  rw [label_data, label_data]
  rcases hlex with h1 | ⟨rfl, h2 | ⟨rfl, h3⟩⟩
  · rw [fmt02_two_digits h (by omega), fmt02_two_digits h' hh']
    exact two_digits_lt h h' h1 hh' _ _
  · apply append_lt_append_left
    rw [fmt02_two_digits m (by omega), fmt02_two_digits m' hm']
    exact List.Lex.cons (two_digits_lt m m' h2 hm' _ _)
  · apply append_lt_append_left
    rw [fmt02_two_digits s (by omega), fmt02_two_digits s' hs']
    refine List.Lex.cons (append_lt_append_left _ _ _ ?_)
    exact List.Lex.cons (two_digits_lt s s' h3 hs' _ _)

/-- Below 100 hours the label grows with the time in the order of strings. -/
theorem ms2String_le_of_le (a b : Int) (ha : 0 ≤ a) (hab : a ≤ b)
    (hb : b < 360000000) : ms2String a ≤ ms2String b := by
  have hb0 : 0 ≤ b := le_trans ha hab
  rcases (Int.ediv_le_ediv (by decide : (0 : Int) < 1000) hab).eq_or_lt with heq | hlt
  · apply le_of_eq
    rw [ms2String_clockFields, ms2String_clockFields, clockFields_eq a ha,
      clockFields_eq b hb0, heq]
  · apply le_of_lt
    rw [ms2String_clockFields, ms2String_clockFields, clockFields_eq a ha,
      clockFields_eq b hb0]
    simp only []
    obtain ⟨h, hh⟩ := Int.eq_ofNat_of_zero_le (show 0 ≤ a / 1000 / 3600 by omega)
    obtain ⟨m, hm⟩ := Int.eq_ofNat_of_zero_le (show 0 ≤ a / 1000 % 3600 / 60 by omega)
    obtain ⟨s, hs⟩ := Int.eq_ofNat_of_zero_le (show 0 ≤ a / 1000 % 60 by omega)
    obtain ⟨h', hh'⟩ := Int.eq_ofNat_of_zero_le (show 0 ≤ b / 1000 / 3600 by omega)
    obtain ⟨m', hm'⟩ := Int.eq_ofNat_of_zero_le (show 0 ≤ b / 1000 % 3600 / 60 by omega)
    obtain ⟨s', hs'⟩ := Int.eq_ofNat_of_zero_le (show 0 ≤ b / 1000 % 60 by omega)
    rw [hh, hm, hs, hh', hm', hs']
    apply label_lt h m s h' m' s' (by omega) (by omega) (by omega)
    omega

/-- Labels are equal exactly when the whole seconds are. -/
theorem ms2String_eq_iff (a b : Int) (ha : 0 ≤ a) (hb : 0 ≤ b) :
    ms2String a = ms2String b ↔ a / 1000 = b / 1000 := by
  rw [ms2String_clockFields, ms2String_clockFields, clockFields_eq a ha, clockFields_eq b hb]
  simp only []
  constructor
  · intro heq
    have := label_inj _ _ _ _ _ _ (by omega) (by omega) (by omega) (by omega) (by omega)
      (by omega) heq
    omega
  · intro heq
    rw [heq]

/-! ## Claim on the clock fields -/

/-- C19, as the code has it: for `a, b ≥ 0` the fields `(h, m, s)` that
`ms2String a` prints satisfy `0 ≤ m < 60`, `0 ≤ s < 60` and
`h * 3600 + m * 60 + s = floor(a / 1000)`; `ms2String a = ms2String b`
exactly when `floor(a / 1000) = floor(b / 1000)`; for `a ≤ b` the field
triple of `a` is lexicographically at most that of `b`; and for `a ≤ b`
below 100 hours (`b < 360000000`) the label of `a` is at most the label of
`b` in the order of strings. -/
theorem clock_label_relations (a b : Int) (ha : 0 ≤ a) (hb : 0 ≤ b) :
    ms2String a = fmt02 (clockFields a).1 ++ ":" ++ fmt02 (clockFields a).2.1 ++ ":"
      ++ fmt02 (clockFields a).2.2 ∧
    (0 ≤ (clockFields a).1 ∧
      0 ≤ (clockFields a).2.1 ∧ (clockFields a).2.1 < 60 ∧
      0 ≤ (clockFields a).2.2 ∧ (clockFields a).2.2 < 60 ∧
      (clockFields a).1 * 3600 + (clockFields a).2.1 * 60 + (clockFields a).2.2
        = a / 1000) ∧
    (ms2String a = ms2String b ↔ a / 1000 = b / 1000) ∧
    (a ≤ b →
      (clockFields a).1 < (clockFields b).1 ∨
      ((clockFields a).1 = (clockFields b).1 ∧
        ((clockFields a).2.1 < (clockFields b).2.1 ∨
          ((clockFields a).2.1 = (clockFields b).2.1 ∧
            (clockFields a).2.2 ≤ (clockFields b).2.2)))) ∧
    (a ≤ b → b < 360000000 → ms2String a ≤ ms2String b) := by
  refine ⟨rfl, ?_, ms2String_eq_iff a b ha hb, ?_, ?_⟩
  · rw [clockFields_eq a ha]
    simp only []
    omega
  · intro hab
    rw [clockFields_eq a ha, clockFields_eq b hb]
    simp only []
    have := Int.ediv_le_ediv (by decide : (0 : Int) < 1000) hab
    omega
  · intro hab hlt
    exact ms2String_le_of_le a b ha hab hlt

theorem clock_label_relations_witness :
    (0 : Int) ≤ 3661000 ∧ (0 : Int) ≤ 3661999 ∧
    clockFields 3661000 = (1, 1, 1) ∧
    (ms2String 3661000 = ms2String 3661999 ↔ (3661000 : Int) / 1000 = 3661999 / 1000) ∧
    ms2String 3661000 ≤ ms2String 3661999 :=
  have h := clock_label_relations 3661000 3661999 (by decide) (by decide)
  ⟨by decide, by decide, by decide, h.2.2.1, h.2.2.2.2 (by decide) (by decide)⟩

/-- C19 as stated fails in its last part: from 99:59:59 to 100:00:00 the time
grows and the label, compared as a string, gets smaller. -/
theorem label_order_breaks_at_100h :
    (359999000 : Int) ≤ 360000000 ∧
    ms2String 359999000 = "99:59:59" ∧ ms2String 360000000 = "100:00:00" ∧
    ¬ (ms2String 359999000 ≤ ms2String 360000000) := by
  have h1 : ms2String 359999000 = "99:59:59" := by decide
  have h2 : ms2String 360000000 = "100:00:00" := by decide
  refine ⟨by decide, h1, h2, ?_⟩
  rw [h1, h2, not_le, String.lt_iff_toList_lt]
  exact List.Lex.rel (by decide)

end Screengen
